import Mathlib

/-!
Field marshaling helpers of `contribs/perlapi/libslurmdb/perl/msg.h`.

A shallow embedding of the inline helpers `av_store_*`, `hv_store_*` and of the
macros `SV2*` / `FETCH_FIELD`, over a small model of the host runtime they call
into (scalars with reference counts in an arena, hashes, arrays).

Conventions.
* C integers are `Nat` / `Int` with explicit wrap-around: `castU w` is the cast
  to the `w`-bit unsigned type, `toIV` the conversion to the host signed integer
  `IV`, `toUV` the conversion to the host unsigned integer `UV`.  The host
  integer is 64 bits wide, `int` is 32 bits wide.
* A `const char *key` is `Option String` (`none` is the null pointer); keys are
  NUL-terminated strings shorter than 2^31 bytes, so `(I32)strlen(key)` is the
  length of the key and the whole string is the hash key.
* A `char *` value is `Option String`, a `void *` is a `Nat` below `2^64` with
  `0` the null pointer.
* Every helper takes the interpreter state and the container and returns the
  C return value together with the new state and container.
* The host macros that read through a scalar pointer (`SvUV`, `SvPV_nolen`, ...) give a
  `Run`: a value, or a fault where the C code dereferences a null or invalid pointer.
-/

namespace PerlMsg

/-! ## Machine integers -/

/-- The cast `(uintW_t) x` of a C integer to the `w`-bit unsigned type. -/
def castU (w : Nat) (x : Int) : Nat := (x % (2 : Int) ^ w).toNat

/-- Conversion of a C integer to the host signed integer `IV` (64 bits, wrapping around). -/
def toIV (x : Int) : Int := (x + 2 ^ 63) % 2 ^ 64 - 2 ^ 63

/-- Conversion of a C integer to the host unsigned integer `UV` (64 bits). -/
def toUV (x : Int) : Nat := castU 64 x

/-- The cast `(I32) x`. -/
def toI32 (x : Int) : Int := (x + 2 ^ 31) % 2 ^ 32 - 2 ^ 31

/-- Modelled from the spec: the sentinel `INFINITE` of `slurm.h`, an unsigned constant
defined outside this header, with the value 0xFFFFFFFF. -/
def INFINITE : Nat := 0xFFFFFFFF

/-- Modelled from the spec: the sentinel `NO_VAL` of `slurm.h`, an unsigned constant
defined outside this header, with the value 0xFFFFFFFE. -/
def NO_VAL : Nat := 0xFFFFFFFE

/-! ## Host runtime: scalars -/

/-- A pointer to a scalar, `SV *`: null, one of the two shared boolean immortals
`&PL_sv_yes` / `&PL_sv_no`, or the address of a scalar in the arena. -/
inductive SVp where
  | null
  | sv_yes
  | sv_no
  | cell (a : Nat)
  deriving DecidableEq, Repr, Inhabited

/-- What a scalar holds.  `iv` is what `newSViv` builds, `uv` what `newSVuv` builds
(the tag records the constructor), `pv` is a string with its own copy of the bytes,
`rv` a reference to the scalar at `target`, `undef` a scalar without value, and `bool`
is the body of the two immortals. -/
inductive Body where
  | undef
  | iv (n : Int)
  | uv (n : Nat)
  | pv (s : String)
  | rv (target : Nat)
  | bool (b : Bool)
  deriving DecidableEq, Repr

/-- A scalar in the arena: reference count, body, and the package it is blessed into. -/
structure SV where
  refcnt : Nat
  body : Body
  stash : Option String
  deriving DecidableEq, Repr

/-- Interpreter state: the arena of scalars (the address of a scalar is its position),
the warnings emitted so far, and the symbol table as far as the helpers see it:
`stashName c` is the name under which the interpreter reports the package that the
non-empty class name `c` resolves to (found, or created on first use). -/
structure Perl where
  heap : List SV
  warnings : List String
  stashName : String → String

/-- The call `gv_stashpv(name, GV_ADD)` followed by `HvNAME`: the name of the package a
class name resolves to.  The empty name resolves to the root package `main`, whatever the
symbol table holds. -/
def gv_stashpv (p : Perl) (name : String) : String :=
  if name = "" then "main" else p.stashName name

/-- Allocation of a fresh scalar with reference count 1. -/
def newSV (p : Perl) (b : Body) : Perl × SVp :=
  ({ p with heap := p.heap ++ [{ refcnt := 1, body := b, stash := none }] }, SVp.cell p.heap.length)

/-- The constructor `newSViv(i)`: a new signed-integer scalar. -/
def newSViv (p : Perl) (i : Int) : Perl × SVp := newSV p (Body.iv (toIV i))

/-- The constructor `newSVuv(u)`: a new unsigned-integer scalar. -/
def newSVuv (p : Perl) (u : Int) : Perl × SVp := newSV p (Body.uv (toUV u))

/-- The constructor `newSVpv(s, 0)`: a new string scalar holding a copy of `s`
(length 0 asks for `strlen`). -/
def newSVpv (p : Perl) (s : String) (_len : Nat) : Perl × SVp := newSV p (Body.pv s)

/-- The constructor `NEWSV(0, 0)`: a new scalar without value. -/
def NEWSV (p : Perl) : Perl × SVp := newSV p Body.undef

/-- Release of one reference to the scalar at `a`: the count goes down by one, and a
scalar whose count reaches 0 is freed, which releases the scalar it refers to.  A scalar
already at 0 is left alone. -/
def decAt : Nat → List SV → Nat → List SV
  | 0, h, _ => h
  | fuel + 1, h, a =>
    match h[a]? with
    | none => h
    | some sv =>
      if sv.refcnt = 0 then h
      else if sv.refcnt = 1 then
        match sv.body with
        | Body.rv t => decAt fuel (h.set a { sv with refcnt := 0 }) t
        | _ => h.set a { sv with refcnt := 0 }
      else h.set a { sv with refcnt := sv.refcnt - 1 }

/-- The call `SvREFCNT_dec(sv)`; a null pointer is accepted and nothing happens.  Each step
of a cascade frees one scalar, so the size of the arena bounds the recursion. -/
def SvREFCNT_dec (p : Perl) : SVp → Perl
  | SVp.cell a => { p with heap := decAt (p.heap.length + 1) p.heap a }
  | _ => p

/-- The call `sv_setref_pv(rv, classname, pv)`: for a non-null `pv`, a new scalar holding
the pointer as an integer is created, blessed into the package `classname` resolves to
when `classname` is not null, and `rv` is made a reference to it; for a null `pv`, `rv` is
set to undef. -/
def sv_setref_pv (p : Perl) (rv : SVp) (classname : Option String) (pv : Nat) : Perl :=
  match rv with
  | SVp.cell a =>
    match p.heap[a]? with
    | none => p
    | some sv =>
      if pv = 0 then { p with heap := p.heap.set a { sv with body := Body.undef } }
      else
        { p with heap :=
            (p.heap.set a { sv with body := Body.rv p.heap.length })
              ++ [{ refcnt := 1, body := Body.iv (toIV pv),
                    stash := classname.map (gv_stashpv p) }] }
  | _ => p

/-- The call `Perl_warn(msg)`. -/
def Perl_warn (p : Perl) (msg : String) : Perl := { p with warnings := p.warnings ++ [msg] }

/-- Result of a host macro that reads through a scalar pointer: a value, or `fault` when
the pointer is null, dangling or freed, or the scalar is not of the kind the macro
dereferences.  A fault is undefined behaviour in C, in practice a crash. -/
inductive Run (α : Type) where
  | ok (a : α)
  | fault
  deriving DecidableEq, Repr

/-- Application of a function to the value of a run. -/
def Run.map {α β : Type} (f : α → β) : Run α → Run β
  | Run.ok a => Run.ok (f a)
  | Run.fault => Run.fault

/-- Sequencing of two runs. -/
def Run.bind {α β : Type} (r : Run α) (f : α → Run β) : Run β :=
  match r with
  | Run.ok a => f a
  | Run.fault => Run.fault

/-- The body of a scalar that may be read: none for the null pointer, for an address
outside the arena and for a freed scalar. -/
def SvBody (p : Perl) : SVp → Option Body
  | SVp.null => none
  | SVp.sv_yes => some (Body.bool true)
  | SVp.sv_no => some (Body.bool false)
  | SVp.cell a =>
    match p.heap[a]? with
    | none => none
    | some sv => if sv.refcnt = 0 then none else some sv.body

/-- White space as the host skips it in front of a number. -/
def isSpaceC (c : Char) : Bool :=
  c.toNat = 32 || c.toNat = 9 || c.toNat = 10 || c.toNat = 11 || c.toNat = 12 || c.toNat = 13

/-- The value of a run of decimal digits. -/
def digitsVal (ds : List Char) : Nat := ds.foldl (fun n c => 10 * n + (c.toNat - 48)) 0

/-- A leading sign: whether it is a minus, and what follows it. -/
def takeSign : List Char → Bool × List Char
  | c :: t => if c = '-' then (true, t) else if c = '+' then (false, t) else (false, c :: t)
  | [] => (false, [])

/-- The digits after a decimal point, and what follows them. -/
def takeFraction : List Char → List Char × List Char
  | c :: t => if c = '.' then t.span Char.isDigit else ([], c :: t)
  | [] => ([], [])

/-- A decimal exponent `e<sign><digits>`, 0 when there is none. -/
def takeExponent : List Char → Int
  | c :: t =>
    if c = 'e' ∨ c = 'E' then
      if ((takeSign t).2.span Char.isDigit).1.isEmpty then 0
      else if (takeSign t).1 then - (digitsVal ((takeSign t).2.span Char.isDigit).1 : Int)
      else (digitsVal ((takeSign t).2.span Char.isDigit).1 : Int)
    else 0
  | [] => 0

/-- The magnitude `D * 10^scale` cut to an integer, with everything from `2^64` on
reported as `2^64`. -/
def scaled (D : Nat) (scale : Int) (ndigits : Nat) : Nat :=
  if D = 0 then 0
  else if 0 ≤ scale then (if 20 < scale then 2 ^ 64 else min (2 ^ 64) (D * 10 ^ scale.toNat))
  else if (ndigits : Int) < - scale then 0
  else min (2 ^ 64) (D / 10 ^ (- scale).toNat)

/-- The integer the host reads from a string: leading white space, an optional sign,
decimal digits with an optional fraction and exponent; what follows is ignored and a
string without leading number reads as 0.  The value is cut towards zero and brought into
the range from `IV_MIN` to `UV_MAX`.  Exact arithmetic stands for the double the host
goes through when the string is not a plain integer, and the spellings of infinity and
of not-a-number are not recognised. -/
def strNum (s : String) : Int :=
  let cs := (takeSign (s.toList.dropWhile isSpaceC)).2
  let neg := (takeSign (s.toList.dropWhile isSpaceC)).1
  let ip := (cs.span Char.isDigit).1
  let fp := (takeFraction (cs.span Char.isDigit).2).1
  let rest := (takeFraction (cs.span Char.isDigit).2).2
  if ip.isEmpty && fp.isEmpty then 0
  else
    let mag := scaled (digitsVal (ip ++ fp)) (takeExponent rest - fp.length) (ip ++ fp).length
    if neg then max (-(mag : Int)) (-(2 ^ 63)) else min (mag : Int) (2 ^ 64 - 1)

/-- The number a scalar holds, as the dynamic side sees it: an integer from `IV_MIN` to
`UV_MAX`.  A string is read as a number, a reference counts as the address of its
referent (here its position in the arena). -/
def Body.num : Body → Int
  | Body.iv n => n
  | Body.uv n => n
  | Body.bool b => if b then 1 else 0
  | Body.undef => 0
  | Body.pv s => strNum s
  | Body.rv t => t

/-- The macro `SvUV(sv)`: the number of the scalar as `UV`. -/
def SvUV (p : Perl) (sv : SVp) : Run Nat :=
  match SvBody p sv with
  | some b => Run.ok (toUV b.num)
  | none => Run.fault

/-- The macro `SvIV(sv)`: the number of the scalar as `IV`. -/
def SvIV (p : Perl) (sv : SVp) : Run Int :=
  match SvBody p sv with
  | some b => Run.ok (toIV b.num)
  | none => Run.fault

/-- The string form of a reference: the package it is blessed into, if any, the kind of
the referent and its address in hexadecimal. -/
def refString (p : Perl) (t : Nat) : String :=
  let pkg := match p.heap[t]? with
    | some r => (match r.stash with | some c => c ++ "=" | none => "")
    | none => ""
  let kind := match p.heap[t]? with
    | some r => (match r.body with | Body.rv _ => "REF" | _ => "SCALAR")
    | none => "SCALAR"
  pkg ++ kind ++ "(0x" ++ String.mk (Nat.toDigits 16 t) ++ ")"

/-- The macro `SvPV_nolen(sv)`: the string of a string scalar itself (no copy), the
decimal form of a number, the empty string for a scalar without value. -/
def SvPV_nolen (p : Perl) (sv : SVp) : Run String :=
  match SvBody p sv with
  | some (Body.pv s) => Run.ok s
  | some (Body.iv n) => Run.ok (toString n)
  | some (Body.uv n) => Run.ok (toString n)
  | some (Body.bool b) => Run.ok (if b then "1" else "")
  | some Body.undef => Run.ok ""
  | some (Body.rv t) => Run.ok (refString p t)
  | none => Run.fault

/-- The macro `SvTRUE(sv)`: truth of a scalar. -/
def SvTRUE (p : Perl) (sv : SVp) : Run Bool :=
  match SvBody p sv with
  | some Body.undef => Run.ok false
  | some (Body.iv n) => Run.ok (decide (n ≠ 0))
  | some (Body.uv n) => Run.ok (decide (n ≠ 0))
  | some (Body.pv s) => Run.ok (decide (s ≠ "" ∧ s ≠ "0"))
  | some (Body.rv _) => Run.ok true
  | some (Body.bool b) => Run.ok b
  | none => Run.fault

/-- The macro `SvRV(sv)`: the scalar a reference points to.  On a scalar that is not a
reference the macro reads a field that holds no pointer: a fault. -/
def SvRV (p : Perl) (sv : SVp) : Run SVp :=
  match SvBody p sv with
  | some (Body.rv t) => Run.ok (SVp.cell t)
  | _ => Run.fault

/-- The package a reference is blessed into (what `ref` answers on the dynamic side). -/
def blessedPackage (p : Perl) (sv : SVp) : Option String :=
  match SvBody p sv with
  | some (Body.rv t) =>
    match p.heap[t]? with
    | some r => r.stash
    | none => none
  | _ => none

/-! ## Host runtime: hashes and arrays -/

/-- A hash `HV`: its entries (key, value pointer), and which keys it lets be stored
(a hash may refuse an insert).  The value pointer of an entry may be null. -/
structure HV where
  entries : List (String × SVp)
  accepts : String → Bool

/-- The call `hv_fetch(hv, key, strlen(key), FALSE)`: a pointer to the value slot of
the entry with exactly this key (`some slot`), or null (`none`).  The hash is not changed. -/
def hv_fetch (hv : HV) (key : String) : Option SVp := hv.entries.lookup key

/-- The call `hv_store(hv, key, strlen(key), val, 0)`: null (`none`) when the hash
refuses the insert, and otherwise the entry of `key` now holds `val`.  The hash takes over
the reference of the caller; no reference count changes.  The release of the value a
replaced entry held before is internal to the host runtime and is not followed. -/
def hv_store (hv : HV) (key : String) (val : SVp) : Option HV :=
  if hv.accepts key then
    some { hv with entries := (key, val) :: hv.entries.filter (fun e => e.1 != key) }
  else none

/-- An array `AV`: its elements, and which indices it lets be stored. -/
structure AV where
  elems : List SVp
  accepts : Int → Bool

/-- The position an index denotes: a negative index counts from the end. -/
def AV.pos (av : AV) (key : Int) : Int := if key < 0 then key + av.elems.length else key

/-- The call `av_fetch(av, key, 0)`. -/
def av_fetch (av : AV) (key : Int) : Option SVp :=
  if av.pos key < 0 then none else av.elems[(av.pos key).toNat]?

/-- The call `av_store(av, key, val)`: null (`none`) when a negative index reaches before
the first element or the array refuses the insert; otherwise the array is extended with
null slots as far as needed and the slot holds `val`. -/
def av_store (av : AV) (key : Int) (val : SVp) : Option AV :=
  if av.pos key < 0 then none
  else if av.accepts key then
    some { av with
      elems := (av.elems ++ List.replicate ((av.pos key).toNat + 1 - av.elems.length) SVp.null).set
        (av.pos key).toNat val }
  else none

/-! ## The helpers of `msg.h` -/

/-- Result of a store helper: the C return value, the interpreter and the container. -/
structure Stored (C : Type) where
  rc : Int
  perl : Perl
  cont : C

/-- The function `av_store_uint16_t(av, index, val)`. -/
def av_store_uint16_t (p : Perl) (av : AV) (index : Int) (val : Nat) : Stored AV :=
  let r :=
    if val = castU 16 INFINITE then newSViv p INFINITE
    else if val = castU 16 NO_VAL then newSViv p NO_VAL
    else newSViv p val
  match av_store av (toI32 index) r.2 with
  | none => { rc := -1, perl := SvREFCNT_dec r.1 r.2, cont := av }
  | some av1 => { rc := 0, perl := r.1, cont := av1 }

/-- The function `av_store_uint32_t(av, index, val)`. -/
def av_store_uint32_t (p : Perl) (av : AV) (index : Int) (val : Nat) : Stored AV :=
  let r :=
    if val = castU 32 INFINITE then newSViv p INFINITE
    else if val = castU 32 NO_VAL then newSViv p NO_VAL
    else newSViv p val
  match av_store av (toI32 index) r.2 with
  | none => { rc := -1, perl := SvREFCNT_dec r.1 r.2, cont := av }
  | some av1 => { rc := 0, perl := r.1, cont := av1 }

/-- The function `av_store_int(av, index, val)`. -/
def av_store_int (p : Perl) (av : AV) (index : Int) (val : Int) : Stored AV :=
  let r := newSViv p val
  match av_store av (toI32 index) r.2 with
  | none => { rc := -1, perl := SvREFCNT_dec r.1 r.2, cont := av }
  | some av1 => { rc := 0, perl := r.1, cont := av1 }

/-- The function `hv_store_charp(hv, key, val)`. -/
def hv_store_charp (p : Perl) (hv : HV) (key : Option String) (val : Option String) : Stored HV :=
  let r :=
    match val with
    | some s => newSVpv p s 0
    | none => (p, SVp.null)
  match key with
  | none => { rc := -1, perl := SvREFCNT_dec r.1 r.2, cont := hv }
  | some k =>
    match hv_store hv k r.2 with
    | none => { rc := -1, perl := SvREFCNT_dec r.1 r.2, cont := hv }
    | some hv1 => { rc := 0, perl := r.1, cont := hv1 }

/-- The function `hv_store_uint64_t(hv, key, val)`. -/
def hv_store_uint64_t (p : Perl) (hv : HV) (key : Option String) (val : Nat) : Stored HV :=
  let r :=
    if val = castU 64 INFINITE then newSViv p INFINITE
    else if val = castU 64 NO_VAL then newSViv p NO_VAL
    else newSVuv p val
  match key with
  | none => { rc := -1, perl := SvREFCNT_dec r.1 r.2, cont := hv }
  | some k =>
    match hv_store hv k r.2 with
    | none => { rc := -1, perl := SvREFCNT_dec r.1 r.2, cont := hv }
    | some hv1 => { rc := 0, perl := r.1, cont := hv1 }

/-- The function `hv_store_uint32_t(hv, key, val)`. -/
def hv_store_uint32_t (p : Perl) (hv : HV) (key : Option String) (val : Nat) : Stored HV :=
  let r :=
    if val = castU 32 INFINITE then newSViv p INFINITE
    else if val = castU 32 NO_VAL then newSViv p NO_VAL
    else newSVuv p val
  match key with
  | none => { rc := -1, perl := SvREFCNT_dec r.1 r.2, cont := hv }
  | some k =>
    match hv_store hv k r.2 with
    | none => { rc := -1, perl := SvREFCNT_dec r.1 r.2, cont := hv }
    | some hv1 => { rc := 0, perl := r.1, cont := hv1 }

/-- The function `hv_store_uint16_t(hv, key, val)`. -/
def hv_store_uint16_t (p : Perl) (hv : HV) (key : Option String) (val : Nat) : Stored HV :=
  let r :=
    if val = castU 16 INFINITE then newSViv p INFINITE
    else if val = castU 16 NO_VAL then newSViv p NO_VAL
    else newSVuv p val
  match key with
  | none => { rc := -1, perl := SvREFCNT_dec r.1 r.2, cont := hv }
  | some k =>
    match hv_store hv k r.2 with
    | none => { rc := -1, perl := SvREFCNT_dec r.1 r.2, cont := hv }
    | some hv1 => { rc := 0, perl := r.1, cont := hv1 }

/-- The function `hv_store_uint8_t(hv, key, val)`. -/
def hv_store_uint8_t (p : Perl) (hv : HV) (key : Option String) (val : Nat) : Stored HV :=
  let r :=
    if val = castU 8 INFINITE then newSViv p INFINITE
    else if val = castU 8 NO_VAL then newSViv p NO_VAL
    else newSVuv p val
  match key with
  | none => { rc := -1, perl := SvREFCNT_dec r.1 r.2, cont := hv }
  | some k =>
    match hv_store hv k r.2 with
    | none => { rc := -1, perl := SvREFCNT_dec r.1 r.2, cont := hv }
    | some hv1 => { rc := 0, perl := r.1, cont := hv1 }

/-- The function `hv_store_int(hv, key, val)`. -/
def hv_store_int (p : Perl) (hv : HV) (key : Option String) (val : Int) : Stored HV :=
  let r := newSViv p val
  match key with
  | none => { rc := -1, perl := SvREFCNT_dec r.1 r.2, cont := hv }
  | some k =>
    match hv_store hv k r.2 with
    | none => { rc := -1, perl := SvREFCNT_dec r.1 r.2, cont := hv }
    | some hv1 => { rc := 0, perl := r.1, cont := hv1 }

/-- The function `hv_store_bool(hv, key, val)`. -/
def hv_store_bool (p : Perl) (hv : HV) (key : Option String) (val : Bool) : Stored HV :=
  match key with
  | none => { rc := -1, perl := p, cont := hv }
  | some k =>
    match hv_store hv k (if val then SVp.sv_yes else SVp.sv_no) with
    | none => { rc := -1, perl := p, cont := hv }
    | some hv1 => { rc := 0, perl := p, cont := hv1 }

/-- The function `hv_store_time_t(hv, key, val)`; `time_t` is a signed 64-bit integer. -/
def hv_store_time_t (p : Perl) (hv : HV) (key : Option String) (val : Int) : Stored HV :=
  let r := newSVuv p val
  match key with
  | none => { rc := -1, perl := SvREFCNT_dec r.1 r.2, cont := hv }
  | some k =>
    match hv_store hv k r.2 with
    | none => { rc := -1, perl := SvREFCNT_dec r.1 r.2, cont := hv }
    | some hv1 => { rc := 0, perl := r.1, cont := hv1 }

/-- The function `hv_store_sv(hv, key, sv)`. -/
def hv_store_sv (p : Perl) (hv : HV) (key : Option String) (sv : SVp) : Stored HV :=
  match key with
  | none => { rc := -1, perl := p, cont := hv }
  | some k =>
    match hv_store hv k sv with
    | none => { rc := -1, perl := p, cont := hv }
    | some hv1 => { rc := 0, perl := p, cont := hv1 }

/-- The function `hv_store_ptr(hv, key, ptr)`. -/
def hv_store_ptr (p : Perl) (hv : HV) (key : Option String) (ptr : Nat) : Stored HV :=
  let r :=
    if ptr ≠ 0 then
      let n := NEWSV p
      (sv_setref_pv n.1 n.2 key ptr, n.2)
    else (p, SVp.null)
  match key with
  | none => { rc := -1, perl := SvREFCNT_dec r.1 r.2, cont := hv }
  | some k =>
    match hv_store hv k r.2 with
    | none => { rc := -1, perl := SvREFCNT_dec r.1 r.2, cont := hv }
    | some hv1 => { rc := 0, perl := r.1, cont := hv1 }

/-! ## Reading: `SV2*` and `FETCH_FIELD` -/

/-- The type names `FETCH_FIELD` can be used with: those for which the header defines a
macro `SV2<type>`. -/
inductive FieldType where
  | uint32_t
  | uint16_t
  | uint8_t
  | time_t
  | charp
  | bool
  | ptr
  deriving DecidableEq, Repr

/-- A value of a field of a native record. -/
inductive NVal where
  | uint (n : Nat)
  | time (t : Int)
  | charp (s : Option String)
  | bool (b : Bool)
  | ptr (a : Nat)
  deriving DecidableEq, Repr

/-- The macro `SV2uint32_t`. -/
def SV2uint32_t (p : Perl) (sv : SVp) : Run Nat := SvUV p sv

/-- The macro `SV2uint16_t`. -/
def SV2uint16_t (p : Perl) (sv : SVp) : Run Nat := SvUV p sv

/-- The macro `SV2uint8_t`. -/
def SV2uint8_t (p : Perl) (sv : SVp) : Run Nat := SvUV p sv

/-- The macro `SV2time_t`. -/
def SV2time_t (p : Perl) (sv : SVp) : Run Nat := SvUV p sv

/-- The macro `SV2charp`. -/
def SV2charp (p : Perl) (sv : SVp) : Run String := SvPV_nolen p sv

/-- The macro `SV2bool`. -/
def SV2bool (p : Perl) (sv : SVp) : Run Bool := SvTRUE p sv

/-- The macro `SV2ptr`: `SvIV(SvRV(sv))`. -/
def SV2ptr (p : Perl) (sv : SVp) : Run Int := (SvRV p sv).bind (SvIV p)

/-- The expression `(type) (SV2##type (*svp))` of `FETCH_FIELD`. -/
def convert (p : Perl) (sv : SVp) : FieldType → Run NVal
  | FieldType.uint32_t => (SV2uint32_t p sv).map (fun n : Nat => NVal.uint (castU 32 n))
  | FieldType.uint16_t => (SV2uint16_t p sv).map (fun n : Nat => NVal.uint (castU 16 n))
  | FieldType.uint8_t => (SV2uint8_t p sv).map (fun n : Nat => NVal.uint (castU 8 n))
  | FieldType.time_t => (SV2time_t p sv).map (fun n : Nat => NVal.time (toIV n))
  | FieldType.charp => (SV2charp p sv).map (fun s => NVal.charp (some s))
  | FieldType.bool => (SV2bool p sv).map NVal.bool
  | FieldType.ptr => (SV2ptr p sv).map (fun n : Int => NVal.ptr (castU 64 n))

/-- A native record: the value of each named field. -/
abbrev Record := String → NVal

/-- The assignment `ptr->field = v`. -/
def Record.assign (r : Record) (field : String) (v : NVal) : Record :=
  fun g => if g = field then v else r g

/-- How the statement `FETCH_FIELD(...)` leaves: control goes on with the record, or the
enclosing function returns `code`. -/
inductive Flow where
  | next (r : Record)
  | ret (code : Int)

/-- State after `FETCH_FIELD`: interpreter, hash, and how control leaves. -/
structure Fetched where
  perl : Perl
  hv : HV
  flow : Flow

/-- The macro `FETCH_FIELD(hv, ptr, field, type, required)`; the key looked up is the
field name.  The entry found is converted without a test of its value pointer, so the
statement faults where the conversion does. -/
def FETCH_FIELD (p : Perl) (hv : HV) (ptr : Record) (field : String) (type : FieldType)
    (required : Bool) : Run Fetched :=
  match hv_fetch hv field with
  | some svp =>
    (convert p svp type).map
      (fun v => { perl := p, hv := hv, flow := Flow.next (ptr.assign field v) })
  | none =>
    if required then
      Run.ok { perl := Perl_warn p ("Required field \"" ++ field ++ "\" missing in HV"),
               hv := hv, flow := Flow.ret (-1) }
    else Run.ok { perl := p, hv := hv, flow := Flow.next ptr }

/-! ## Naming the helpers uniformly -/

/-- The helper `hv_store_uint<W>_t` for a width `W` of 8, 16, 32 or 64 bits. -/
def hv_store_uint (W : Nat) (p : Perl) (hv : HV) (key : Option String) (val : Nat) : Stored HV :=
  if W = 8 then hv_store_uint8_t p hv key val
  else if W = 16 then hv_store_uint16_t p hv key val
  else if W = 32 then hv_store_uint32_t p hv key val
  else hv_store_uint64_t p hv key val

/-- The helper `av_store_uint<W>_t` for a width `W` of 16 or 32 bits. -/
def av_store_uint (W : Nat) (p : Perl) (av : AV) (index : Int) (val : Nat) : Stored AV :=
  if W = 16 then av_store_uint16_t p av index val else av_store_uint32_t p av index val

/-- The type name `uint<W>_t` as `FETCH_FIELD` takes it, for a width of 8, 16 or 32 bits. -/
def uintType (W : Nat) : FieldType :=
  if W = 8 then FieldType.uint8_t else if W = 16 then FieldType.uint16_t else FieldType.uint32_t

/-- A call of one of the ten `hv_store_*` helpers, with the value it is given. -/
inductive HvCall where
  | charp (val : Option String)
  | uint64_t (val : Nat)
  | uint32_t (val : Nat)
  | uint16_t (val : Nat)
  | uint8_t (val : Nat)
  | int (val : Int)
  | bool (val : Bool)
  | time_t (val : Int)
  | sv (sv : SVp)
  | ptr (ptr : Nat)

/-- The call `hv_store_<type>(hv, key, val)`, as `STORE_FIELD` pastes it together. -/
def HvCall.run (c : HvCall) (p : Perl) (hv : HV) (key : Option String) : Stored HV :=
  match c with
  | HvCall.charp val => hv_store_charp p hv key val
  | HvCall.uint64_t val => hv_store_uint64_t p hv key val
  | HvCall.uint32_t val => hv_store_uint32_t p hv key val
  | HvCall.uint16_t val => hv_store_uint16_t p hv key val
  | HvCall.uint8_t val => hv_store_uint8_t p hv key val
  | HvCall.int val => hv_store_int p hv key val
  | HvCall.bool val => hv_store_bool p hv key val
  | HvCall.time_t val => hv_store_time_t p hv key val
  | HvCall.sv x => hv_store_sv p hv key x
  | HvCall.ptr x => hv_store_ptr p hv key x

/-- How many scalars the call constructs before it tries the insert. -/
def HvCall.constructs : HvCall → Nat
  | HvCall.charp val => if val.isSome then 1 else 0
  | HvCall.bool _ => 0
  | HvCall.sv _ => 0
  | HvCall.ptr x => if x = 0 then 0 else 2
  | _ => 1

/-- The pointer the call hands to `hv_store`: the scalar it has just built, one of the
two boolean immortals, the scalar it was given, or null for a null string or pointer. -/
def HvCall.value (c : HvCall) (p : Perl) : SVp :=
  match c with
  | HvCall.charp none => SVp.null
  | HvCall.bool b => if b then SVp.sv_yes else SVp.sv_no
  | HvCall.sv x => x
  | HvCall.ptr x => if x = 0 then SVp.null else SVp.cell p.heap.length
  | _ => SVp.cell p.heap.length

/-- The scalar behind `sv` reads back as the value the call was given, with the `SV2*`
macro of its type (for the integer types: a value that fits the type). -/
def HvCall.readsBack (c : HvCall) (p : Perl) (sv : SVp) : Prop :=
  match c with
  | HvCall.charp none => sv = SVp.null
  | HvCall.charp (some s) => SV2charp p sv = Run.ok s
  | HvCall.uint64_t val =>
    val < 2 ^ 64 → (SvUV p sv).map (fun n : Nat => castU 64 (n : Int)) = Run.ok val
  | HvCall.uint32_t val =>
    val < 2 ^ 32 → (SV2uint32_t p sv).map (fun n : Nat => castU 32 (n : Int)) = Run.ok val
  | HvCall.uint16_t val =>
    val < 2 ^ 16 → (SV2uint16_t p sv).map (fun n : Nat => castU 16 (n : Int)) = Run.ok val
  | HvCall.uint8_t val =>
    val < 2 ^ 8 → (SV2uint8_t p sv).map (fun n : Nat => castU 8 (n : Int)) = Run.ok val
  | HvCall.int val => -2 ^ 31 ≤ val → val < 2 ^ 31 → SvIV p sv = Run.ok val
  | HvCall.bool b => SV2bool p sv = Run.ok b
  | HvCall.time_t t =>
    -2 ^ 63 ≤ t → t < 2 ^ 63 → (SV2time_t p sv).map (fun n : Nat => toIV (n : Int)) = Run.ok t
  | HvCall.sv x => sv = x
  | HvCall.ptr x =>
    if x = 0 then sv = SVp.null
    else x < 2 ^ 64 → (SV2ptr p sv).map (fun n : Int => castU 64 n) = Run.ok x

/-- A call of one of the three `av_store_*` helpers, with the value it is given. -/
inductive AvCall where
  | uint16_t (val : Nat)
  | uint32_t (val : Nat)
  | int (val : Int)

/-- The call `av_store_<type>(av, index, val)`. -/
def AvCall.run (c : AvCall) (p : Perl) (av : AV) (index : Int) : Stored AV :=
  match c with
  | AvCall.uint16_t val => av_store_uint16_t p av index val
  | AvCall.uint32_t val => av_store_uint32_t p av index val
  | AvCall.int val => av_store_int p av index val

/-- The hash refuses an insert at `key`, whatever the value. -/
def HV.rejects (hv : HV) (key : String) : Prop := ∀ val, hv_store hv key val = none

/-- The array refuses an insert at `key`, whatever the value. -/
def AV.rejects (av : AV) (key : Int) : Prop := ∀ val, av_store av key val = none

/-- The number held by the entry of `key` after a store into a hash. -/
def hvNum (r : Stored HV) (key : String) : Option Int :=
  (hv_fetch r.cont key).bind (fun sv => (SvBody r.perl sv).map Body.num)

/-- The number held by the element at `index` after a store into an array. -/
def avNum (r : Stored AV) (index : Int) : Option Int :=
  (av_fetch r.cont index).bind (fun sv => (SvBody r.perl sv).map Body.num)

/-- The value `val` is the sentinel `INFINITE` or `NO_VAL` cut down to `W` bits. -/
def isSentinel (W : Nat) (val : Nat) : Prop := val = castU W INFINITE ∨ val = castU W NO_VAL

instance (W val : Nat) : Decidable (isSentinel W val) := by
  unfold isSentinel; infer_instance

/-- The body of the scalar `hv_store_uint<W>_t` builds for `val`. -/
def uintBody (W : Nat) (val : Nat) : Body :=
  if val = castU W INFINITE then Body.iv INFINITE
  else if val = castU W NO_VAL then Body.iv NO_VAL
  else Body.uv val

/-- The tail shared by the hash helpers that build a scalar: try the insert, and on a
null key or a refused insert release the scalar and return -1. -/
def hvTail (r : Perl × SVp) (hv : HV) (key : Option String) : Stored HV :=
  match key with
  | none => { rc := -1, perl := SvREFCNT_dec r.1 r.2, cont := hv }
  | some k =>
    match hv_store hv k r.2 with
    | none => { rc := -1, perl := SvREFCNT_dec r.1 r.2, cont := hv }
    | some hv1 => { rc := 0, perl := r.1, cont := hv1 }

/-- The tail shared by the array helpers. -/
def avTail (r : Perl × SVp) (av : AV) (index : Int) : Stored AV :=
  match av_store av (toI32 index) r.2 with
  | none => { rc := -1, perl := SvREFCNT_dec r.1 r.2, cont := av }
  | some av1 => { rc := 0, perl := r.1, cont := av1 }

/-- The body of the scalar `av_store_uint<W>_t` builds for `val`. -/
def avBody (W : Nat) (val : Nat) : Body :=
  if val = castU W INFINITE then Body.iv INFINITE
  else if val = castU W NO_VAL then Body.iv NO_VAL
  else Body.iv val

/-! ## Concrete states used in the examples -/

/-- The pieces of a package name between the separators `::` and the apostrophe. -/
def splitPkg : List Char → List Char → List String
  | [], cur => [String.mk cur.reverse]
  | [c], cur =>
    if c.toNat = 39 then [String.mk cur.reverse, ""] else [String.mk (c :: cur).reverse]
  | c :: d :: u, cur =>
    if c.toNat = 39 then String.mk cur.reverse :: splitPkg (d :: u) []
    else if c = ':' ∧ d = ':' then String.mk cur.reverse :: splitPkg u []
    else splitPkg (d :: u) (c :: cur)

/-- Package names in a symbol table that holds the root package `main` only: a name made
of segments `main` alone walks back to the root, any other name creates a package that is
reported under the name as it was written. -/
def mainOnlyName (k : String) : String :=
  let pieces := splitPkg k.toList []
  let segs := if pieces.head? = some "" then pieces.tail else pieces
  if segs.all (fun x => x == "main") then "main" else k

/-- An interpreter with an empty arena and only the package `main`. -/
def perl0 : Perl := { heap := [], warnings := [], stashName := mainOnlyName }

/-- An empty hash that takes every insert. -/
def hvOpen : HV := { entries := [], accepts := fun _ => true }

/-- An empty hash that refuses every insert. -/
def hvShut : HV := { entries := [], accepts := fun _ => false }

/-- An empty array that takes every insert. -/
def avOpen : AV := { elems := [], accepts := fun _ => true }

/-- A hash that already has an entry under the empty key, holding the immortal `no`. -/
def hvEmptyKey : HV := { entries := [("", SVp.sv_no)], accepts := fun _ => true }

/-- A record whose fields all hold the number 0. -/
def rec0 : Record := fun _ => NVal.uint 0

/-! ## Lemmas on the host runtime model -/

theorem hv_rejects_iff (hv : HV) (k : String) : hv.rejects k ↔ hv.accepts k = false := by
  unfold HV.rejects hv_store
  cases h : hv.accepts k <;> simp

theorem av_rejects_iff (av : AV) (k : Int) :
    av.rejects k ↔ (av.pos k < 0 ∨ av.accepts k = false) := by
  unfold AV.rejects av_store
  by_cases h1 : av.pos k < 0
  · simp [h1]
  · cases h : av.accepts k <;> simp [h1]

theorem hv_store_eq_none (hv : HV) (k : String) (sv : SVp) :
    hv_store hv k sv = none ↔ hv.rejects k := by
  rw [hv_rejects_iff]; unfold hv_store
  cases h : hv.accepts k <;> simp

theorem av_store_eq_none (av : AV) (k : Int) (sv : SVp) :
    av_store av k sv = none ↔ av.rejects k := by
  rw [av_rejects_iff]; unfold av_store
  by_cases h1 : av.pos k < 0
  · simp [h1]
  · cases h : av.accepts k <;> simp [h1]

/-! ## Return codes -/

theorem hv_rc_cases (c : HvCall) (p : Perl) (hv : HV) (key : Option String) :
    ((c.run p hv key).rc = -1 ↔ (key = none ∨ ∃ k, key = some k ∧ hv.rejects k)) ∧
    ((c.run p hv key).rc = 0 ↔ ∃ k, key = some k ∧ ¬ hv.rejects k) := by
  cases key with
  | none => cases c <;> simp [HvCall.run, hv_store_charp, hv_store_uint64_t, hv_store_uint32_t,
      hv_store_uint16_t, hv_store_uint8_t, hv_store_int, hv_store_bool, hv_store_time_t,
      hv_store_sv, hv_store_ptr]
  | some k =>
    simp only [hv_rejects_iff]
    cases h : hv.accepts k <;>
    cases c <;> simp [HvCall.run, hv_store_charp, hv_store_uint64_t, hv_store_uint32_t,
      hv_store_uint16_t, hv_store_uint8_t, hv_store_int, hv_store_bool, hv_store_time_t,
      hv_store_sv, hv_store_ptr, hv_store, h]

theorem hv_fail_cont (c : HvCall) (p : Perl) (hv : HV) (key : Option String)
    (h : (c.run p hv key).rc = -1) : (c.run p hv key).cont = hv := by
  cases key with
  | none => cases c <;> rfl
  | some k =>
    revert h
    cases h : hv.accepts k <;>
    cases c <;> simp [HvCall.run, hv_store_charp, hv_store_uint64_t, hv_store_uint32_t,
      hv_store_uint16_t, hv_store_uint8_t, hv_store_int, hv_store_bool, hv_store_time_t,
      hv_store_sv, hv_store_ptr, hv_store, h]

theorem av_rc_cases (c : AvCall) (p : Perl) (av : AV) (index : Int) :
    ((c.run p av index).rc = -1 ↔ av.rejects (toI32 index)) ∧
    ((c.run p av index).rc = 0 ↔ ¬ av.rejects (toI32 index)) ∧
    ((c.run p av index).rc = -1 → (c.run p av index).cont = av) := by
  simp only [av_rejects_iff]
  by_cases h1 : av.pos (toI32 index) < 0
  · cases c <;> simp [AvCall.run, av_store_uint16_t, av_store_uint32_t, av_store_int,
      av_store, h1]
  · cases h : av.accepts (toI32 index) <;>
    cases c <;> simp [AvCall.run, av_store_uint16_t, av_store_uint32_t, av_store_int,
      av_store, h1, h]

/-- C4: each of the ten `hv_store_*` helpers returns -1 exactly when the key is null or
the hash refuses the insert, and 0 otherwise; with a null key, and on every failure, the
hash is the one it was given.  Each of the three `av_store_*` helpers returns -1 exactly
when the array refuses the insert, and 0 otherwise.  No other value is returned. -/
theorem store_return_code (p : Perl) :
    (∀ (c : HvCall) (hv : HV) (key : Option String),
      ((c.run p hv key).rc = -1 ↔ (key = none ∨ ∃ k, key = some k ∧ hv.rejects k)) ∧
      ((c.run p hv key).rc = 0 ↔ ¬ (key = none ∨ ∃ k, key = some k ∧ hv.rejects k)) ∧
      ((c.run p hv key).rc = -1 ∨ (c.run p hv key).rc = 0) ∧
      (c.run p hv none).cont = hv ∧
      ((c.run p hv key).rc = -1 → (c.run p hv key).cont = hv)) ∧
    (∀ (c : AvCall) (av : AV) (index : Int),
      ((c.run p av index).rc = -1 ↔ av.rejects (toI32 index)) ∧
      ((c.run p av index).rc = 0 ↔ ¬ av.rejects (toI32 index)) ∧
      ((c.run p av index).rc = -1 ∨ (c.run p av index).rc = 0) ∧
      ((c.run p av index).rc = -1 → (c.run p av index).cont = av)) := by
  refine ⟨fun c hv key => ?_, fun c av index => ?_⟩
  · have h := hv_rc_cases c p hv key
    have hz : (c.run p hv key).rc = 0 ↔ ¬ (key = none ∨ ∃ k, key = some k ∧ hv.rejects k) := by
      rw [h.2]
      cases key with
      | none => simp
      | some k => simp
    refine ⟨h.1, hz, ?_, ?_, hv_fail_cont c p hv key⟩
    · by_cases hk : (key = none ∨ ∃ k, key = some k ∧ hv.rejects k)
      · exact Or.inl (h.1.mpr hk)
      · exact Or.inr (hz.mpr hk)
    · cases c <;> rfl
  · have h := av_rc_cases c p av index
    refine ⟨h.1, h.2.1, ?_, h.2.2⟩
    by_cases hk : av.rejects (toI32 index)
    · exact Or.inl (h.1.mpr hk)
    · exact Or.inr (h.2.1.mpr hk)

/-- Instance of C4: `hv_store_int` on a hash that refuses the insert returns -1. -/
theorem store_return_code_witness :
    ((HvCall.int 5).run perl0 hvShut (some "k")).rc = -1 :=
  ((store_return_code perl0).1 (HvCall.int 5) hvShut (some "k")).1.mpr
    (Or.inr ⟨"k", rfl, fun _ => rfl⟩)

theorem castU_nat (w n : Nat) : castU w (n : Int) = n % 2 ^ w := by
  unfold castU
  have h : ((n : Int) % (2 : Int) ^ w) = ((n % 2 ^ w : Nat) : Int) := by push_cast; rfl
  rw [h, Int.toNat_ofNat]

theorem castU_of_lt (w n : Nat) (h : n < 2 ^ w) : castU w (n : Int) = n := by
  rw [castU_nat, Nat.mod_eq_of_lt h]

theorem toUV_of_lt (n : Nat) (h : n < 2 ^ 64) : toUV (n : Int) = n := castU_of_lt 64 n h

theorem toIV_of_lt (n : Nat) (h : n < 2 ^ 63) : toIV (n : Int) = n := by
  unfold toIV
  omega

theorem heap_fresh (h : List SV) (c : SV) : (h ++ [c])[h.length]? = some c := by
  simp

theorem SvBody_newSV (p : Perl) (b : Body) : SvBody (newSV p b).1 (newSV p b).2 = some b := by
  simp [SvBody, newSV]

theorem hv_fetch_store (hv hv1 : HV) (k : String) (sv : SVp) (h : hv_store hv k sv = some hv1) :
    hv_fetch hv1 k = some sv := by
  unfold hv_store at h
  split at h
  · cases h
    simp [hv_fetch, List.lookup]
  · cases h

theorem decAt_fresh (h : List SV) (b : Body) (st : Option String) (fuel : Nat)
    (hb : ∀ t, b ≠ Body.rv t) :
    decAt (fuel + 1) (h ++ [{ refcnt := 1, body := b, stash := st }]) h.length
      = h ++ [{ refcnt := 0, body := b, stash := st }] := by
  cases b with
  | rv t => exact absurd rfl (hb t)
  | _ => simp [decAt]

theorem release_fresh (p : Perl) (b : Body) (hb : ∀ t, b ≠ Body.rv t) :
    SvREFCNT_dec (newSV p b).1 (newSV p b).2
      = { p with heap := p.heap ++ [{ refcnt := 0, body := b, stash := none }] } := by
  simp only [SvREFCNT_dec, newSV]
  rw [show (p.heap ++ [({ refcnt := 1, body := b, stash := none } : SV)]).length + 1
        = (p.heap.length + 1) + 1 by simp]
  rw [decAt_fresh _ _ _ _ hb]

theorem hvTail_ok (r : Perl × SVp) (hv : HV) (k : String) (h : hv.accepts k = true) :
    hvTail r hv (some k)
      = { rc := 0, perl := r.1,
          cont := { hv with entries := (k, r.2) :: hv.entries.filter (fun e => e.1 != k) } } := by
  simp [hvTail, hv_store, h]

theorem uintBody_not_rv (W val : Nat) : ∀ t, uintBody W val ≠ Body.rv t := by
  intro t
  unfold uintBody
  split_ifs <;> simp

theorem hv_store_uint_eq (W : Nat) (hW : W = 8 ∨ W = 16 ∨ W = 32 ∨ W = 64) (p : Perl) (hv : HV)
    (key : Option String) (val : Nat) (hval : val < 2 ^ W) :
    hv_store_uint W p hv key val = hvTail (newSV p (uintBody W val)) hv key := by
  have h64 : val < 2 ^ 64 := by
    rcases hW with rfl | rfl | rfl | rfl <;> omega
  have hI : toIV (INFINITE : Int) = INFINITE := by decide
  have hN : toIV (NO_VAL : Int) = NO_VAL := by decide
  have hU : toUV (val : Int) = val := toUV_of_lt val h64
  rcases hW with rfl | rfl | rfl | rfl <;>
    simp only [hv_store_uint, hv_store_uint8_t, hv_store_uint16_t, hv_store_uint32_t,
      hv_store_uint64_t, uintBody, newSViv, newSVuv, hI, hN, hU] <;>
    (split_ifs <;> first | rfl | omega)

theorem av_fetch_store (av av1 : AV) (k : Int) (sv : SVp) (h : av_store av k sv = some av1) :
    av_fetch av1 k = some sv := by
  unfold av_store at h
  split_ifs at h with h1 h2
  cases h
  have hp : 0 ≤ av.pos k := not_lt.mp h1
  have hn : ((av.pos k).toNat : Int) = av.pos k := Int.toNat_of_nonneg hp
  generalize (av.pos k).toNat = n at hn ⊢
  have hpos : AV.pos { av with elems := (av.elems ++ List.replicate
      (n + 1 - av.elems.length) SVp.null).set n sv } k = av.pos k := by
    simp only [AV.pos, List.length_set, List.length_append, List.length_replicate] at hn ⊢
    split_ifs at hn ⊢ with hk
    · have : n + 1 - av.elems.length = 0 := by omega
      rw [this]; simp
    · rfl
  have hlt : n < (av.elems ++ List.replicate (n + 1 - av.elems.length) SVp.null).length := by
    simp only [List.length_append, List.length_replicate]; omega
  unfold av_fetch
  rw [hpos, if_neg h1, ← hn, Int.toNat_ofNat, List.getElem?_set_self hlt]

theorem avTail_ok (r : Perl × SVp) (av : AV) (index : Int) (h : (avTail r av index).rc = 0) :
    (avTail r av index).perl = r.1 ∧ av_fetch (avTail r av index).cont (toI32 index) = some r.2 := by
  unfold avTail at h ⊢
  cases hs : av_store av (toI32 index) r.2 with
  | none => rw [hs] at h; simp at h
  | some av1 => exact ⟨rfl, av_fetch_store av av1 _ _ hs⟩

theorem avTail_fail (r : Perl × SVp) (av : AV) (index : Int) (h : (avTail r av index).rc = -1) :
    avTail r av index = { rc := -1, perl := SvREFCNT_dec r.1 r.2, cont := av } := by
  unfold avTail at h ⊢
  cases hs : av_store av (toI32 index) r.2 with
  | none => rfl
  | some av1 => rw [hs] at h; simp at h

theorem avBody_not_rv (W val : Nat) : ∀ t, avBody W val ≠ Body.rv t := by
  intro t
  unfold avBody
  split_ifs <;> simp

theorem av_store_uint_eq (W : Nat) (hW : W = 16 ∨ W = 32) (p : Perl) (av : AV)
    (index : Int) (val : Nat) (hval : val < 2 ^ W) :
    av_store_uint W p av index val = avTail (newSV p (avBody W val)) av index := by
  have h63 : val < 2 ^ 63 := by
    rcases hW with rfl | rfl <;> omega
  have hI : toIV (INFINITE : Int) = INFINITE := by decide
  have hN : toIV (NO_VAL : Int) = NO_VAL := by decide
  have hU : toIV (val : Int) = val := toIV_of_lt val h63
  rcases hW with rfl | rfl <;>
    simp only [av_store_uint, av_store_uint16_t, av_store_uint32_t, avTail,
      avBody, newSViv, hI, hN, hU] <;>
    (split_ifs <;> first | rfl | omega)

theorem hvTail_rc_zero (r : Perl × SVp) (hv : HV) (k : String) (h : (hvTail r hv (some k)).rc = 0) :
    (hvTail r hv (some k)).perl = r.1 ∧ hv_fetch (hvTail r hv (some k)).cont k = some r.2 := by
  simp only [hvTail] at h ⊢
  cases hs : hv_store hv k r.2 with
  | none => rw [hs] at h; simp at h
  | some hv1 => exact ⟨rfl, hv_fetch_store hv hv1 _ _ hs⟩

theorem hvNum_tail (p : Perl) (b : Body) (hv : HV) (k : String)
    (h : (hvTail (newSV p b) hv (some k)).rc = 0) :
    hvNum (hvTail (newSV p b) hv (some k)) k = b.num := by
  have h2 := hvTail_rc_zero _ hv k h
  unfold hvNum
  rw [h2.2, h2.1]
  simp [SvBody_newSV]

theorem avNum_tail (p : Perl) (b : Body) (av : AV) (index : Int)
    (h : (avTail (newSV p b) av index).rc = 0) :
    avNum (avTail (newSV p b) av index) (toI32 index) = b.num := by
  have h2 := avTail_ok _ av index h
  unfold avNum
  rw [h2.2, h2.1]
  simp [SvBody_newSV]

theorem hvOpen_accepts (k : String) : ¬ hvOpen.rejects k := by
  rw [hv_rejects_iff]
  simp [hvOpen]

theorem avOpen_accepts (i : Int) (h : 0 ≤ i) : ¬ avOpen.rejects i := by
  rw [av_rejects_iff]
  simp [avOpen, AV.pos]
  omega

theorem accepts_of_not_rejects (hv : HV) (k : String) (h : ¬ hv.rejects k) :
    hv.accepts k = true := by
  rw [hv_rejects_iff] at h
  simpa using h

theorem hvTail_accept (r : Perl × SVp) (hv : HV) (k : String) (h : ¬ hv.rejects k) :
    (hvTail r hv (some k)).rc = 0 ∧ (hvTail r hv (some k)).perl = r.1 ∧
      hv_fetch (hvTail r hv (some k)).cont k = some r.2 := by
  have hrc : (hvTail r hv (some k)).rc = 0 := by
    rw [hvTail_ok r hv k (accepts_of_not_rejects hv k h)]
  exact ⟨hrc, hvTail_rc_zero r hv k hrc⟩

theorem avTail_accept (r : Perl × SVp) (av : AV) (index : Int)
    (h : ¬ av.rejects (toI32 index)) :
    (avTail r av index).rc = 0 ∧ (avTail r av index).perl = r.1 ∧
      av_fetch (avTail r av index).cont (toI32 index) = some r.2 := by
  have hrc : (avTail r av index).rc = 0 := by
    unfold avTail
    cases hs : av_store av (toI32 index) r.2 with
    | none => exact absurd ((av_store_eq_none av _ _).mp hs) h
    | some av1 => rfl
  exact ⟨hrc, avTail_ok r av index hrc⟩

/-- C1: for a width `W` of 8, 16, 32 or 64 bits and a `W`-bit value `val`, on a hash that
takes the insert under the key `hv_store_uint<W>_t` returns 0 and the entry of the key
holds the number `INFINITE` if `val` is `INFINITE` cut to `W` bits and the number `NO_VAL`
if `val` is `NO_VAL` cut to `W` bits; the same holds for the element stored by
`av_store_uint16_t` and `av_store_uint32_t` in an array that takes the insert. -/
theorem sentinel_canonical_on_write (W : Nat) (hW : W = 8 ∨ W = 16 ∨ W = 32 ∨ W = 64)
    (p : Perl) (val : Nat) (hval : val < 2 ^ W) :
    (∀ (hv : HV) (k : String), ¬ hv.rejects k →
      (hv_store_uint W p hv (some k) val).rc = 0 ∧
      (val = castU W INFINITE →
        hvNum (hv_store_uint W p hv (some k) val) k = some (INFINITE : Int)) ∧
      (val = castU W NO_VAL →
        hvNum (hv_store_uint W p hv (some k) val) k = some (NO_VAL : Int))) ∧
    (∀ (av : AV) (index : Int), W = 16 ∨ W = 32 → ¬ av.rejects (toI32 index) →
      (av_store_uint W p av index val).rc = 0 ∧
      (val = castU W INFINITE →
        avNum (av_store_uint W p av index val) (toI32 index) = some (INFINITE : Int)) ∧
      (val = castU W NO_VAL →
        avNum (av_store_uint W p av index val) (toI32 index) = some (NO_VAL : Int))) := by
  have hne : castU W INFINITE ≠ castU W NO_VAL := by
    rcases hW with rfl | rfl | rfl | rfl <;> decide
  refine ⟨fun hv k hacc => ?_, fun av index hW2 hacc => ?_⟩
  · rw [hv_store_uint_eq W hW p hv (some k) val hval]
    have hrc := (hvTail_accept (newSV p (uintBody W val)) hv k hacc).1
    rw [hvNum_tail p _ hv k hrc]
    refine ⟨hrc, ?_, ?_⟩
    · intro h; simp [uintBody, h, Body.num]
    · intro h; simp [uintBody, h, Body.num, hne.symm]
  · rw [av_store_uint_eq W hW2 p av index val hval]
    have hrc := (avTail_accept (newSV p (avBody W val)) av index hacc).1
    rw [avNum_tail p _ av index hrc]
    refine ⟨hrc, ?_, ?_⟩
    · intro h; simp [avBody, h, Body.num]
    · intro h; simp [avBody, h, Body.num, hne.symm]

/-- Instances of C1, one for each helper: the sentinel of the helper's width is stored as
4294967295 (`INFINITE`) or 4294967294 (`NO_VAL`). -/
theorem sentinel_canonical_on_write_witness :
    (hvNum (hv_store_uint8_t perl0 hvOpen (some "k") 0xFF) "k" = some 4294967295 ∧
     hvNum (hv_store_uint8_t perl0 hvOpen (some "k") 0xFE) "k" = some 4294967294) ∧
    (hvNum (hv_store_uint16_t perl0 hvOpen (some "k") 0xFFFF) "k" = some 4294967295 ∧
     hvNum (hv_store_uint16_t perl0 hvOpen (some "k") 0xFFFE) "k" = some 4294967294) ∧
    (hvNum (hv_store_uint32_t perl0 hvOpen (some "k") 0xFFFFFFFF) "k" = some 4294967295 ∧
     hvNum (hv_store_uint32_t perl0 hvOpen (some "k") 0xFFFFFFFE) "k" = some 4294967294) ∧
    (hvNum (hv_store_uint64_t perl0 hvOpen (some "k") 0xFFFFFFFF) "k" = some 4294967295 ∧
     hvNum (hv_store_uint64_t perl0 hvOpen (some "k") 0xFFFFFFFE) "k" = some 4294967294) ∧
    (avNum (av_store_uint16_t perl0 avOpen 0 0xFFFF) (toI32 0) = some 4294967295 ∧
     avNum (av_store_uint16_t perl0 avOpen 0 0xFFFE) (toI32 0) = some 4294967294) ∧
    (avNum (av_store_uint32_t perl0 avOpen 0 0xFFFFFFFF) (toI32 0) = some 4294967295 ∧
     avNum (av_store_uint32_t perl0 avOpen 0 0xFFFFFFFE) (toI32 0) = some 4294967294) :=
  have hk := hvOpen_accepts "k"
  have ha : ¬ avOpen.rejects (toI32 0) := avOpen_accepts (toI32 0) (by decide)
  ⟨⟨((sentinel_canonical_on_write 8 (by decide) perl0 0xFF (by decide)).1 hvOpen "k" hk).2.1
      (by decide),
    ((sentinel_canonical_on_write 8 (by decide) perl0 0xFE (by decide)).1 hvOpen "k" hk).2.2
      (by decide)⟩,
   ⟨((sentinel_canonical_on_write 16 (by decide) perl0 0xFFFF (by decide)).1 hvOpen "k" hk).2.1
      (by decide),
    ((sentinel_canonical_on_write 16 (by decide) perl0 0xFFFE (by decide)).1 hvOpen "k" hk).2.2
      (by decide)⟩,
   ⟨((sentinel_canonical_on_write 32 (by decide) perl0 0xFFFFFFFF (by decide)).1 hvOpen "k"
      hk).2.1 (by decide),
    ((sentinel_canonical_on_write 32 (by decide) perl0 0xFFFFFFFE (by decide)).1 hvOpen "k"
      hk).2.2 (by decide)⟩,
   ⟨((sentinel_canonical_on_write 64 (by decide) perl0 0xFFFFFFFF (by decide)).1 hvOpen "k"
      hk).2.1 (by decide),
    ((sentinel_canonical_on_write 64 (by decide) perl0 0xFFFFFFFE (by decide)).1 hvOpen "k"
      hk).2.2 (by decide)⟩,
   ⟨((sentinel_canonical_on_write 16 (by decide) perl0 0xFFFF (by decide)).2 avOpen 0
      (Or.inl rfl) ha).2.1 (by decide),
    ((sentinel_canonical_on_write 16 (by decide) perl0 0xFFFE (by decide)).2 avOpen 0
      (Or.inl rfl) ha).2.2 (by decide)⟩,
   ⟨((sentinel_canonical_on_write 32 (by decide) perl0 0xFFFFFFFF (by decide)).2 avOpen 0
      (Or.inr rfl) ha).2.1 (by decide),
    ((sentinel_canonical_on_write 32 (by decide) perl0 0xFFFFFFFE (by decide)).2 avOpen 0
      (Or.inr rfl) ha).2.2 (by decide)⟩⟩

theorem toIV_toUV (t : Int) (h1 : -2 ^ 63 ≤ t) (h2 : t < 2 ^ 63) : toIV ((toUV t : Nat) : Int) = t := by
  unfold toIV toUV castU
  rw [Int.toNat_of_nonneg (Int.emod_nonneg _ (by norm_num))]
  omega

theorem SvUV_uintBody (W : Nat) (p : Perl) (val : Nat) (hval : val < 2 ^ W)
    (h64 : val < 2 ^ 64) :
    ∃ n, SvUV (newSV p (uintBody W val)).1 (newSV p (uintBody W val)).2 = Run.ok n ∧
      castU W n = val := by
  unfold SvUV
  rw [SvBody_newSV]
  unfold uintBody
  have hI : toUV (INFINITE : Int) = INFINITE := by decide
  have hN : toUV (NO_VAL : Int) = NO_VAL := by decide
  split_ifs with h1 h2
  · exact ⟨INFINITE, by simp [Body.num, hI], h1.symm⟩
  · exact ⟨NO_VAL, by simp [Body.num, hN], h2.symm⟩
  · exact ⟨val, by simp [Body.num, toUV_of_lt val h64], castU_of_lt W val hval⟩

theorem FETCH_FIELD_present (p : Perl) (hv : HV) (r : Record) (field : String) (ty : FieldType)
    (required : Bool) (sv : SVp) (v : NVal) (h1 : hv_fetch hv field = some sv)
    (h2 : convert p sv ty = Run.ok v) :
    FETCH_FIELD p hv r field ty required
      = Run.ok { perl := p, hv := hv, flow := Flow.next (r.assign field v) } := by
  simp [FETCH_FIELD, h1, h2, Run.map]

theorem convert_uint (W : Nat) (hW : W = 8 ∨ W = 16 ∨ W = 32) (p : Perl) (sv : SVp) :
    convert p sv (uintType W) = (SvUV p sv).map (fun n : Nat => NVal.uint (castU W n)) := by
  rcases hW with rfl | rfl | rfl <;> rfl

theorem lt_64_of_width (W : Nat) (hW : W = 8 ∨ W = 16 ∨ W = 32 ∨ W = 64) (val : Nat)
    (hval : val < 2 ^ W) : val < 2 ^ 64 := by
  rcases hW with rfl | rfl | rfl | rfl <;> omega

/-- C2: for a width `W` of 8, 16, 32 or 64 bits and a `W`-bit value `val`, on a hash that
takes the insert `hv_store_uint<W>_t(hv, key, val)` returns 0 and the entry of `key` read
with `SvUV` and cast to `W` bits is `val`; for 8, 16 and 32 bits `FETCH_FIELD` with the
type `uint<W>_t` assigns exactly `val` to the field named `key`; and a `time_t` stored with
`hv_store_time_t` is assigned back unchanged by `FETCH_FIELD` with the type `time_t`. -/
theorem integer_round_trip (p : Perl) (hv : HV) (k : String) (hacc : ¬ hv.rejects k) :
    (∀ (W val : Nat), W = 8 ∨ W = 16 ∨ W = 32 ∨ W = 64 → val < 2 ^ W →
      (hv_store_uint W p hv (some k) val).rc = 0 ∧
      ∃ sv n, hv_fetch (hv_store_uint W p hv (some k) val).cont k = some sv ∧
        SvUV (hv_store_uint W p hv (some k) val).perl sv = Run.ok n ∧ castU W n = val) ∧
    (∀ (W val : Nat) (r : Record) (required : Bool), W = 8 ∨ W = 16 ∨ W = 32 → val < 2 ^ W →
      FETCH_FIELD (hv_store_uint W p hv (some k) val).perl
          (hv_store_uint W p hv (some k) val).cont r k (uintType W) required
        = Run.ok { perl := (hv_store_uint W p hv (some k) val).perl,
                   hv := (hv_store_uint W p hv (some k) val).cont,
                   flow := Flow.next (r.assign k (NVal.uint val)) }) ∧
    (∀ (t : Int) (r : Record) (required : Bool), -2 ^ 63 ≤ t → t < 2 ^ 63 →
      (hv_store_time_t p hv (some k) t).rc = 0 ∧
      FETCH_FIELD (hv_store_time_t p hv (some k) t).perl
          (hv_store_time_t p hv (some k) t).cont r k FieldType.time_t required
        = Run.ok { perl := (hv_store_time_t p hv (some k) t).perl,
                   hv := (hv_store_time_t p hv (some k) t).cont,
                   flow := Flow.next (r.assign k (NVal.time t)) }) := by
  refine ⟨fun W val hW hval => ?_, fun W val r required hW hval => ?_,
    fun t r required h1 h2 => ?_⟩
  · rw [hv_store_uint_eq W hW p hv (some k) val hval]
    obtain ⟨hrc, hp, hf⟩ := hvTail_accept (newSV p (uintBody W val)) hv k hacc
    obtain ⟨n, hn, hc⟩ := SvUV_uintBody W p val hval (lt_64_of_width W hW val hval)
    exact ⟨hrc, _, n, hf, by rw [hp]; exact hn, hc⟩
  · have hW4 : W = 8 ∨ W = 16 ∨ W = 32 ∨ W = 64 := by
      rcases hW with h | h | h
      · exact Or.inl h
      · exact Or.inr (Or.inl h)
      · exact Or.inr (Or.inr (Or.inl h))
    rw [hv_store_uint_eq W hW4 p hv (some k) val hval]
    obtain ⟨_, hp, hf⟩ := hvTail_accept (newSV p (uintBody W val)) hv k hacc
    obtain ⟨n, hn, hc⟩ := SvUV_uintBody W p val hval (lt_64_of_width W hW4 val hval)
    apply FETCH_FIELD_present _ _ _ _ _ _ _ _ hf
    rw [convert_uint W hW, hp, hn]
    simp [Run.map, hc]
  · have he : hv_store_time_t p hv (some k) t
        = hvTail (newSV p (Body.uv (toUV t))) hv (some k) := rfl
    rw [he]
    obtain ⟨hrc, hp, hf⟩ := hvTail_accept (newSV p (Body.uv (toUV t))) hv k hacc
    refine ⟨hrc, ?_⟩
    apply FETCH_FIELD_present _ _ _ _ _ _ _ _ hf
    rw [hp]
    have h64 : toUV t < 2 ^ 64 := by
      unfold toUV castU
      have := Int.emod_lt_of_pos t (show (0 : Int) < 2 ^ 64 by norm_num)
      have := Int.emod_nonneg t (show ((2 : Int) ^ 64) ≠ 0 by norm_num)
      omega
    simp [convert, SV2time_t, SvUV, SvBody_newSV, Run.map, Body.num, toUV_of_lt _ h64,
      toIV_toUV t h1 h2]

/-- Instances of C2, one for each helper: the 8 and 16-bit sentinels and an ordinary
32-bit value come back through `FETCH_FIELD`, the largest 64-bit value comes back through
`SvUV`, and a negative `time_t` comes back through `FETCH_FIELD`. -/
theorem integer_round_trip_witness :
    (((hv_store_uint8_t perl0 hvOpen (some "k") 0xFE).rc = 0 ∧
      ∃ f, FETCH_FIELD (hv_store_uint8_t perl0 hvOpen (some "k") 0xFE).perl
          (hv_store_uint8_t perl0 hvOpen (some "k") 0xFE).cont rec0 "k" FieldType.uint8_t true
        = Run.ok f ∧ ∃ r, f.flow = Flow.next r ∧ r "k" = NVal.uint 0xFE) ∧
     ((hv_store_uint16_t perl0 hvOpen (some "k") 0xFFFF).rc = 0 ∧
      ∃ f, FETCH_FIELD (hv_store_uint16_t perl0 hvOpen (some "k") 0xFFFF).perl
          (hv_store_uint16_t perl0 hvOpen (some "k") 0xFFFF).cont rec0 "k" FieldType.uint16_t true
        = Run.ok f ∧ ∃ r, f.flow = Flow.next r ∧ r "k" = NVal.uint 0xFFFF) ∧
     ((hv_store_uint32_t perl0 hvOpen (some "k") 7).rc = 0 ∧
      ∃ f, FETCH_FIELD (hv_store_uint32_t perl0 hvOpen (some "k") 7).perl
          (hv_store_uint32_t perl0 hvOpen (some "k") 7).cont rec0 "k" FieldType.uint32_t true
        = Run.ok f ∧ ∃ r, f.flow = Flow.next r ∧ r "k" = NVal.uint 7)) ∧
    ((hv_store_uint64_t perl0 hvOpen (some "k") 0xFFFFFFFFFFFFFFFF).rc = 0 ∧
      ∃ sv n, hv_fetch (hv_store_uint64_t perl0 hvOpen (some "k") 0xFFFFFFFFFFFFFFFF).cont "k"
          = some sv ∧
        SvUV (hv_store_uint64_t perl0 hvOpen (some "k") 0xFFFFFFFFFFFFFFFF).perl sv = Run.ok n ∧
        castU 64 n = 0xFFFFFFFFFFFFFFFF) ∧
    ((hv_store_time_t perl0 hvOpen (some "k") (-5)).rc = 0 ∧
      ∃ f, FETCH_FIELD (hv_store_time_t perl0 hvOpen (some "k") (-5)).perl
          (hv_store_time_t perl0 hvOpen (some "k") (-5)).cont rec0 "k" FieldType.time_t true
        = Run.ok f ∧ ∃ r, f.flow = Flow.next r ∧ r "k" = NVal.time (-5)) :=
  have h := integer_round_trip perl0 hvOpen "k" (hvOpen_accepts "k")
  have hread : ∀ v : NVal, (rec0.assign "k" v) "k" = v := fun v => by simp [Record.assign]
  ⟨⟨⟨(h.1 8 0xFE (by decide) (by decide)).1,
      _, h.2.1 8 0xFE rec0 true (by decide) (by decide), _, rfl, hread _⟩,
     ⟨(h.1 16 0xFFFF (by decide) (by decide)).1,
      _, h.2.1 16 0xFFFF rec0 true (by decide) (by decide), _, rfl, hread _⟩,
     ⟨(h.1 32 7 (by decide) (by decide)).1,
      _, h.2.1 32 7 rec0 true (by decide) (by decide), _, rfl, hread _⟩⟩,
   h.1 64 0xFFFFFFFFFFFFFFFF (by decide) (by decide),
   ⟨(h.2.2 (-5) rec0 true (by decide) (by decide)).1,
    _, (h.2.2 (-5) rec0 true (by decide) (by decide)).2, _, rfl, hread _⟩⟩

theorem FETCH_FIELD_cases (p : Perl) (hv : HV) (ptr : Record) (field : String)
    (ty : FieldType) (required : Bool) :
    (hv_fetch hv field = none ∧ required = true ∧
      FETCH_FIELD p hv ptr field ty required
        = Run.ok { perl := Perl_warn p ("Required field \"" ++ field ++ "\" missing in HV"),
                   hv := hv, flow := Flow.ret (-1) }) ∨
    (hv_fetch hv field = none ∧ required = false ∧
      FETCH_FIELD p hv ptr field ty required
        = Run.ok { perl := p, hv := hv, flow := Flow.next ptr }) ∨
    (∃ sv, hv_fetch hv field = some sv ∧ convert p sv ty = Run.fault ∧
      FETCH_FIELD p hv ptr field ty required = Run.fault) ∨
    (∃ sv v, hv_fetch hv field = some sv ∧ convert p sv ty = Run.ok v ∧
      FETCH_FIELD p hv ptr field ty required
        = Run.ok { perl := p, hv := hv, flow := Flow.next (ptr.assign field v) }) := by
  cases hf : hv_fetch hv field with
  | none =>
    cases required
    · exact Or.inr (Or.inl ⟨rfl, rfl, by simp [FETCH_FIELD, hf]⟩)
    · exact Or.inl ⟨rfl, rfl, by simp [FETCH_FIELD, hf]⟩
  | some sv =>
    cases hc : convert p sv ty with
    | fault =>
      exact Or.inr (Or.inr (Or.inl ⟨sv, rfl, hc, by simp [FETCH_FIELD, hf, hc, Run.map]⟩))
    | ok v =>
      exact Or.inr (Or.inr (Or.inr ⟨sv, v, rfl, hc, by simp [FETCH_FIELD, hf, hc, Run.map]⟩))


/-- The control flow of `FETCH_FIELD(hv, ptr, field, type, required)`: the enclosing
conversion returns -1 exactly when the key `field` is absent from `hv` and `required` is
true, and -1 is the only code it returns; with the key absent and `required` false control
goes on with the record as it was; with the key present and an entry the `SV2<type>` macro
reads as `v`, control goes on, `ptr->field` is `v`, every other field is as before and no
warning is emitted.  Whenever the statement completes, `hv` is unchanged and no field other
than `field` changes. -/
theorem fetch_field_contract (p : Perl) (hv : HV) (ptr : Record) (field : String)
    (ty : FieldType) (required : Bool) :
    ((∃ f, FETCH_FIELD p hv ptr field ty required = Run.ok f ∧ f.flow = Flow.ret (-1)) ↔
      (hv_fetch hv field = none ∧ required = true)) ∧
    (∀ f c, FETCH_FIELD p hv ptr field ty required = Run.ok f → f.flow = Flow.ret c → c = -1) ∧
    (hv_fetch hv field = none ↔ ∀ e ∈ hv.entries, e.1 ≠ field) ∧
    (hv_fetch hv field = none → required = false →
      FETCH_FIELD p hv ptr field ty required = Run.ok { perl := p, hv := hv, flow := Flow.next ptr }) ∧
    (∀ sv v, hv_fetch hv field = some sv → convert p sv ty = Run.ok v →
      FETCH_FIELD p hv ptr field ty required
          = Run.ok { perl := p, hv := hv, flow := Flow.next (ptr.assign field v) } ∧
        (ptr.assign field v) field = v ∧
        ∀ g, g ≠ field → (ptr.assign field v) g = ptr g) ∧
    (∀ f, FETCH_FIELD p hv ptr field ty required = Run.ok f →
      f.hv = hv ∧ f.perl.heap = p.heap ∧
      ∀ r g, f.flow = Flow.next r → g ≠ field → r g = ptr g) := by
  have hassign : ∀ v g, g ≠ field → (ptr.assign field v) g = ptr g := by
    intro v g hg
    simp [Record.assign, hg]
  have hlook : hv_fetch hv field = none ↔ ∀ e ∈ hv.entries, e.1 ≠ field := by
    unfold hv_fetch
    rw [List.lookup_eq_none_iff]
    constructor
    · intro h e he heq
      have hne := h e he
      rw [heq, bne_self_eq_false] at hne
      cases hne
    · intro h e he
      have hne := h e he
      rw [bne_iff_ne]
      exact fun h2 => hne h2.symm
  rcases FETCH_FIELD_cases p hv ptr field ty required with
    ⟨hf, hr, he⟩ | ⟨hf, hr, he⟩ | ⟨sv, hf, hc, he⟩ | ⟨sv, v, hf, hc, he⟩
  · refine ⟨?_, ?_, hlook, ?_, ?_, ?_⟩
    · exact ⟨fun _ => ⟨hf, hr⟩, fun _ => ⟨_, he, rfl⟩⟩
    · intro f c h1 h2
      rw [he] at h1
      cases h1
      cases h2
      rfl
    · intro _ h; rw [hr] at h; cases h
    · intro sv v h; rw [hf] at h; cases h
    · intro f h1
      rw [he] at h1
      cases h1
      refine ⟨rfl, rfl, ?_⟩
      intro r g h; cases h
  · refine ⟨?_, ?_, hlook, ?_, ?_, ?_⟩
    · constructor
      · rintro ⟨f, h1, h2⟩
        rw [he] at h1
        cases h1
        cases h2
      · rintro ⟨_, h⟩; rw [hr] at h; cases h
    · intro f c h1 h2
      rw [he] at h1
      cases h1
      cases h2
    · intro _ _; exact he
    · intro sv v h; rw [hf] at h; cases h
    · intro f h1
      rw [he] at h1
      cases h1
      refine ⟨rfl, rfl, ?_⟩
      intro r g h _; cases h; rfl
  · refine ⟨?_, ?_, hlook, ?_, ?_, ?_⟩
    · constructor
      · rintro ⟨f, h1, _⟩
        rw [he] at h1
        cases h1
      · rintro ⟨h, _⟩; rw [hf] at h; cases h
    · intro f c h1
      rw [he] at h1
      cases h1
    · intro h; rw [hf] at h; cases h
    · intro sv2 v h1 h2
      rw [hf] at h1
      cases h1
      rw [hc] at h2
      cases h2
    · intro f h1
      rw [he] at h1
      cases h1
  · refine ⟨?_, ?_, hlook, ?_, ?_, ?_⟩
    · constructor
      · rintro ⟨f, h1, h2⟩
        rw [he] at h1
        cases h1
        cases h2
      · rintro ⟨h, _⟩; rw [hf] at h; cases h
    · intro f c h1 h2
      rw [he] at h1
      cases h1
      cases h2
    · intro h; rw [hf] at h; cases h
    · intro sv2 v2 h1 h2
      rw [hf] at h1
      cases h1
      rw [hc] at h2
      cases h2
      exact ⟨he, by simp [Record.assign], hassign v⟩
    · intro f h1
      rw [he] at h1
      cases h1
      refine ⟨rfl, rfl, ?_⟩
      intro r g h hg
      cases h
      exact hassign v g hg

theorem convert_null (p : Perl) (ty : FieldType) : convert p SVp.null ty = Run.fault := by
  cases ty <;> rfl

theorem convert_defined (p : Perl) (sv : SVp) (b : Body) (ty : FieldType)
    (hb : SvBody p sv = some b) (hty : ty ≠ FieldType.ptr) :
    convert p sv ty ≠ Run.fault := by
  cases ty with
  | ptr => exact absurd rfl hty
  | uint32_t => simp [convert, SV2uint32_t, SvUV, hb, Run.map]
  | uint16_t => simp [convert, SV2uint16_t, SvUV, hb, Run.map]
  | uint8_t => simp [convert, SV2uint8_t, SvUV, hb, Run.map]
  | time_t => simp [convert, SV2time_t, SvUV, hb, Run.map]
  | charp => cases b <;> simp [convert, SV2charp, SvPV_nolen, hb, Run.map]
  | bool => cases b <;> simp [convert, SV2bool, SvTRUE, hb, Run.map]

/-- Whatever the type and the `required` flag, `FETCH_FIELD` faults on an entry whose
value pointer is null. -/
theorem fetch_field_null_entry (p : Perl) (hv : HV) (ptr : Record) (field : String)
    (ty : FieldType) (required : Bool) (h : hv_fetch hv field = some SVp.null) :
    FETCH_FIELD p hv ptr field ty required = Run.fault := by
  simp [FETCH_FIELD, h, convert_null, Run.map]

theorem hv_store_charp_some (p : Perl) (hv : HV) (key : Option String) (s : String) :
    hv_store_charp p hv key (some s) = hvTail (newSV p (Body.pv s)) hv key := rfl

theorem hv_store_charp_none (p : Perl) (hv : HV) (key : Option String) :
    hv_store_charp p hv key none = hvTail (p, SVp.null) hv key := rfl

theorem hv_fetch_cons (hv : HV) (k : String) (sv : SVp) (l : List (String × SVp)) :
    hv_fetch { hv with entries := (k, sv) :: l } k = some sv := by
  simp [hv_fetch, List.lookup]

theorem lookup_filter_ne (l : List (String × SVp)) (k k2 : String) (h : k2 ≠ k) :
    (l.filter (fun e => e.1 != k)).lookup k2 = l.lookup k2 := by
  induction l with
  | nil => rfl
  | cons e t ih =>
    by_cases he : e.1 = k
    · have hk2 : (k2 == k) = false := by simpa using h
      have hflt : (e.1 != k) = false := by simp [he]
      obtain ⟨e1, e2⟩ := e
      simp only at he hflt
      subst he
      simp only [List.filter, hflt, List.lookup, hk2]
      exact ih
    · have hne : (e.1 != k) = true := by simpa using he
      obtain ⟨e1, e2⟩ := e
      simp only at hne
      simp only [List.filter, hne, List.lookup]
      cases hk : (k2 == e1) with
      | true => rfl
      | false => exact ih

theorem hv_fetch_other (hv : HV) (k k2 : String) (sv : SVp) (h : k2 ≠ k) :
    hv_fetch { hv with entries := (k, sv) :: hv.entries.filter (fun e => e.1 != k) } k2
      = hv_fetch hv k2 := by
  have hk : (k2 == k) = false := by simpa using h
  simp only [hv_fetch, List.lookup, hk]
  exact lookup_filter_ne hv.entries k k2 h

theorem heap2_fst (h : List SV) (a b : SV) : (h ++ [a, b])[h.length]? = some a := by
  rw [List.getElem?_append_right (le_refl _)]
  simp

theorem heap2_snd (h : List SV) (a b : SV) : (h ++ [a, b])[h.length + 1]? = some b := by
  rw [List.getElem?_append_right (Nat.le_succ _)]
  simp

/-- The interpreter after `NEWSV` and `sv_setref_pv` on the fresh scalar. -/
theorem setref_fresh (p : Perl) (key : Option String) (ptr : Nat) (hp : ptr ≠ 0) :
    sv_setref_pv (NEWSV p).1 (NEWSV p).2 key ptr
      = { p with heap := p.heap ++
            [{ refcnt := 1, body := Body.rv (p.heap.length + 1), stash := none },
             { refcnt := 1, body := Body.iv (toIV ptr), stash := key.map (gv_stashpv p) }] } := by
  cases key <;> simp [sv_setref_pv, NEWSV, newSV, hp, gv_stashpv]

theorem hv_store_ptr_nonnull (p : Perl) (hv : HV) (key : Option String) (ptr : Nat)
    (hp : ptr ≠ 0) :
    hv_store_ptr p hv key ptr
      = hvTail ({ p with heap := p.heap ++
                    [{ refcnt := 1, body := Body.rv (p.heap.length + 1), stash := none },
                     { refcnt := 1, body := Body.iv (toIV ptr),
                       stash := key.map (gv_stashpv p) }] },
                SVp.cell p.heap.length) hv key := by
  unfold hv_store_ptr
  simp only [hp, ne_eq, not_false_eq_true, if_true, setref_fresh p key ptr hp]
  rfl

theorem hv_store_ptr_null (p : Perl) (hv : HV) (key : Option String) :
    hv_store_ptr p hv key 0 = hvTail (p, SVp.null) hv key := rfl

theorem castU_toIV (n : Nat) (h : n < 2 ^ 64) : castU 64 (toIV n) = n := by
  unfold castU toIV
  have h2 : ((((n : Int) + 2 ^ 63) % 2 ^ 64 - 2 ^ 63) % (2 : Int) ^ 64) = n := by omega
  rw [h2, Int.toNat_ofNat]

theorem toIV_of_range (x : Int) (h1 : -2 ^ 63 ≤ x) (h2 : x < 2 ^ 63) : toIV x = x := by
  unfold toIV
  omega

/-- Reading the reference that `hv_store_ptr` builds for a non-null pointer. -/
theorem ptr_cells_read (p : Perl) (st : Option String) (ptr : Nat) :
    SvBody { p with heap := p.heap ++
        [{ refcnt := 1, body := Body.rv (p.heap.length + 1), stash := none },
         { refcnt := 1, body := Body.iv (toIV ptr), stash := st }] } (SVp.cell p.heap.length)
      = some (Body.rv (p.heap.length + 1)) ∧
    SvBody { p with heap := p.heap ++
        [{ refcnt := 1, body := Body.rv (p.heap.length + 1), stash := none },
         { refcnt := 1, body := Body.iv (toIV ptr), stash := st }] }
        (SVp.cell (p.heap.length + 1))
      = some (Body.iv (toIV ptr)) ∧
    blessedPackage { p with heap := p.heap ++
        [{ refcnt := 1, body := Body.rv (p.heap.length + 1), stash := none },
         { refcnt := 1, body := Body.iv (toIV ptr), stash := st }] } (SVp.cell p.heap.length)
      = st ∧
    SV2ptr { p with heap := p.heap ++
        [{ refcnt := 1, body := Body.rv (p.heap.length + 1), stash := none },
         { refcnt := 1, body := Body.iv (toIV ptr), stash := st }] } (SVp.cell p.heap.length)
      = Run.ok (toIV ptr) := by
  have hrv : SvBody { p with heap := p.heap ++
        [{ refcnt := 1, body := Body.rv (p.heap.length + 1), stash := none },
         { refcnt := 1, body := Body.iv (toIV ptr), stash := st }] } (SVp.cell p.heap.length)
      = some (Body.rv (p.heap.length + 1)) := by
    simp only [SvBody, heap2_fst]
    simp
  have hiv : SvBody { p with heap := p.heap ++
        [{ refcnt := 1, body := Body.rv (p.heap.length + 1), stash := none },
         { refcnt := 1, body := Body.iv (toIV ptr), stash := st }] }
        (SVp.cell (p.heap.length + 1))
      = some (Body.iv (toIV ptr)) := by
    simp only [SvBody, heap2_snd]
    simp
  refine ⟨hrv, hiv, ?_, ?_⟩
  · simp only [blessedPackage, hrv, heap2_snd]
  · have h2 : toIV (toIV (ptr : Int)) = toIV ptr := by
      unfold toIV
      omega
    simp [SV2ptr, SvRV, SvIV, hrv, hiv, Run.bind, Body.num, h2]

theorem run_accept_shape (c : HvCall) (p : Perl) (hv : HV) (k : String)
    (h : ¬ hv.rejects k) :
    (c.run p hv (some k)).rc = 0 ∧
    (c.run p hv (some k)).cont
      = { hv with entries := (k, c.value p) :: hv.entries.filter (fun e => e.1 != k) } := by
  have hacc := accepts_of_not_rejects hv k h
  cases c with
  | charp val =>
    cases val with
    | none => rw [HvCall.run, hv_store_charp_none, hvTail_ok _ hv k hacc]; exact ⟨rfl, rfl⟩
    | some s => rw [HvCall.run, hv_store_charp_some, hvTail_ok _ hv k hacc]; exact ⟨rfl, rfl⟩
  | uint64_t val =>
    simp only [HvCall.run, hv_store_uint64_t, hv_store, hacc, HvCall.value, newSViv, newSVuv,
      newSV]
    split_ifs <;> exact ⟨rfl, rfl⟩
  | uint32_t val =>
    simp only [HvCall.run, hv_store_uint32_t, hv_store, hacc, HvCall.value, newSViv, newSVuv,
      newSV]
    split_ifs <;> exact ⟨rfl, rfl⟩
  | uint16_t val =>
    simp only [HvCall.run, hv_store_uint16_t, hv_store, hacc, HvCall.value, newSViv, newSVuv,
      newSV]
    split_ifs <;> exact ⟨rfl, rfl⟩
  | uint8_t val =>
    simp only [HvCall.run, hv_store_uint8_t, hv_store, hacc, HvCall.value, newSViv, newSVuv,
      newSV]
    split_ifs <;> exact ⟨rfl, rfl⟩
  | int val =>
    simp only [HvCall.run, hv_store_int, hv_store, hacc, HvCall.value, newSViv, newSV]
    exact ⟨rfl, rfl⟩
  | bool val =>
    simp only [HvCall.run, hv_store_bool, hv_store, hacc, HvCall.value]
    exact ⟨rfl, rfl⟩
  | time_t val =>
    simp only [HvCall.run, hv_store_time_t, hv_store, hacc, HvCall.value, newSVuv, newSV]
    exact ⟨rfl, rfl⟩
  | sv x =>
    simp only [HvCall.run, hv_store_sv, hv_store, hacc, HvCall.value]
    exact ⟨rfl, rfl⟩
  | ptr x =>
    by_cases hx : x = 0
    · subst hx
      rw [HvCall.run, hv_store_ptr_null, hvTail_ok _ hv k hacc]
      exact ⟨rfl, rfl⟩
    · rw [HvCall.run, hv_store_ptr_nonnull p hv (some k) x hx, hvTail_ok _ hv k hacc]
      simp [HvCall.value, hx]

theorem toUV_lt (t : Int) : toUV t < 2 ^ 64 := by
  unfold toUV castU
  have h1 := Int.emod_lt_of_pos t (show (0 : Int) < 2 ^ 64 by norm_num)
  have h2 := Int.emod_nonneg t (show ((2 : Int) ^ 64) ≠ 0 by norm_num)
  omega

theorem uint_reads_back (W : Nat) (hW : W = 8 ∨ W = 16 ∨ W = 32 ∨ W = 64) (p : Perl) (hv : HV)
    (k : String) (val : Nat) (hval : val < 2 ^ W) (h : ¬ hv.rejects k) :
    (SvUV (hv_store_uint W p hv (some k) val).perl (SVp.cell p.heap.length)).map
        (fun n : Nat => castU W (n : Int)) = Run.ok val := by
  rw [hv_store_uint_eq W hW p hv (some k) val hval,
    hvTail_ok _ hv k (accepts_of_not_rejects hv k h)]
  obtain ⟨n, hn, hc⟩ := SvUV_uintBody W p val hval (lt_64_of_width W hW val hval)
  have hn2 : SvUV (newSV p (uintBody W val)).1 (SVp.cell p.heap.length) = Run.ok n := hn
  simp only [hn2, Run.map, hc]

theorem run_accept_reads (c : HvCall) (p : Perl) (hv : HV) (k : String)
    (h : ¬ hv.rejects k) : c.readsBack (c.run p hv (some k)).perl (c.value p) := by
  have hacc := accepts_of_not_rejects hv k h
  cases c with
  | charp val =>
    cases val with
    | none => rfl
    | some s =>
      show SV2charp (hv_store_charp p hv (some k) (some s)).perl (SVp.cell p.heap.length)
        = Run.ok s
      rw [hv_store_charp_some, hvTail_ok _ hv k hacc]
      have hb : SvBody (newSV p (Body.pv s)).1 (SVp.cell p.heap.length) = some (Body.pv s) :=
        SvBody_newSV p (Body.pv s)
      simp only [SV2charp, SvPV_nolen, hb]
  | uint64_t val => exact fun hval => uint_reads_back 64 (by decide) p hv k val hval h
  | uint32_t val => exact fun hval => uint_reads_back 32 (by decide) p hv k val hval h
  | uint16_t val => exact fun hval => uint_reads_back 16 (by decide) p hv k val hval h
  | uint8_t val => exact fun hval => uint_reads_back 8 (by decide) p hv k val hval h
  | int val =>
    intro h1 h2
    have he : hv_store_int p hv (some k) val
        = hvTail (newSV p (Body.iv (toIV val))) hv (some k) := rfl
    show SvIV (hv_store_int p hv (some k) val).perl (SVp.cell p.heap.length) = Run.ok val
    rw [he, hvTail_ok _ hv k hacc]
    have hb : SvBody (newSV p (Body.iv (toIV val))).1 (SVp.cell p.heap.length)
        = some (Body.iv (toIV val)) := SvBody_newSV p _
    have hv1 : toIV val = val := toIV_of_range val (by omega) (by omega)
    rw [SvIV, hb]
    simp only [Body.num, hv1]
  | bool val => cases val <;> rfl
  | time_t t =>
    intro h1 h2
    have he : hv_store_time_t p hv (some k) t
        = hvTail (newSV p (Body.uv (toUV t))) hv (some k) := rfl
    show (SV2time_t (hv_store_time_t p hv (some k) t).perl (SVp.cell p.heap.length)).map
        (fun n : Nat => toIV (n : Int)) = Run.ok t
    rw [he, hvTail_ok _ hv k hacc]
    have hb : SvBody (newSV p (Body.uv (toUV t))).1 (SVp.cell p.heap.length)
        = some (Body.uv (toUV t)) := SvBody_newSV p _
    simp only [SV2time_t, SvUV, hb, Body.num, Run.map, toUV_of_lt _ (toUV_lt t),
      toIV_toUV t h1 h2]
  | sv x => rfl
  | ptr x =>
    by_cases hx : x = 0
    · subst hx
      rfl
    · show (if x = 0 then _ else _)
      rw [if_neg hx]
      intro hlt
      show (SV2ptr (hv_store_ptr p hv (some k) x).perl (HvCall.value (HvCall.ptr x) p)).map
          (fun n : Int => castU 64 n) = Run.ok x
      rw [hv_store_ptr_nonnull p hv (some k) x hx, hvTail_ok _ hv k hacc]
      simp only [HvCall.value, if_neg hx, (ptr_cells_read p _ x).2.2.2, Run.map,
        castU_toIV x hlt]

/-- On a hash that takes the insert under `k`, every helper returns 0, the entry of `k` is
the pointer it handed to `hv_store`, the scalar behind it reads back as the value given,
and the entries of the other keys are as before. -/
theorem hv_stores_value (c : HvCall) (p : Perl) (hv : HV) (k : String) (h : ¬ hv.rejects k) :
    (c.run p hv (some k)).rc = 0 ∧
    hv_fetch (c.run p hv (some k)).cont k = some (c.value p) ∧
    c.readsBack (c.run p hv (some k)).perl (c.value p) ∧
    ∀ k2, k2 ≠ k → hv_fetch (c.run p hv (some k)).cont k2 = hv_fetch hv k2 := by
  obtain ⟨hrc, hcont⟩ := run_accept_shape c p hv k h
  refine ⟨hrc, ?_, run_accept_reads c p hv k h, ?_⟩
  · rw [hcont]; exact hv_fetch_cons hv k _ _
  · intro k2 hk2
    rw [hcont]; exact hv_fetch_other hv k k2 _ hk2

/-- C5, counterexample: the empty string is taken as a key like any other:
`hv_store_int(hv, "", 5)` on an empty hash that takes inserts returns 0 and leaves an
entry under the key `""`. -/
theorem empty_key_is_stored :
    (hv_store_int perl0 hvOpen (some "") 5).rc = 0 ∧
    hv_fetch hvOpen "" = none ∧
    hv_fetch (hv_store_int perl0 hvOpen (some "") 5).cont "" = some (SVp.cell 0) := by
  decide

/-- C5, amended: for each of the ten `hv_store_*` helpers a null key makes the call
return -1, as a refused insert does, and the hash is the one it was given; the empty
string is an ordinary key: the call returns -1 exactly when the hash refuses the insert
under `""`, and otherwise it returns 0, the entry under `""` is the value the call was
given (the scalar it built, which reads back as that value, the boolean immortal, the
scalar supplied, or null for a null string or pointer) and every other entry is as before. -/
theorem invalid_key_is_null_key (c : HvCall) (p : Perl) (hv : HV) :
    ((c.run p hv none).rc = -1 ∧ (c.run p hv none).cont = hv) ∧
    (∀ k, hv.rejects k → (c.run p hv (some k)).rc = -1 ∧ (c.run p hv (some k)).cont = hv) ∧
    ((c.run p hv (some "")).rc = -1 ↔ hv.rejects "") ∧
    (¬ hv.rejects "" →
      (c.run p hv (some "")).rc = 0 ∧
      hv_fetch (c.run p hv (some "")).cont "" = some (c.value p) ∧
      c.readsBack (c.run p hv (some "")).perl (c.value p) ∧
      ∀ k2, k2 ≠ "" → hv_fetch (c.run p hv (some "")).cont k2 = hv_fetch hv k2) := by
  have hnone : (c.run p hv none).rc = -1 := (hv_rc_cases c p hv none).1.mpr (Or.inl rfl)
  refine ⟨⟨hnone, hv_fail_cont c p hv none hnone⟩, ?_, ?_, hv_stores_value c p hv ""⟩
  · intro k hk
    have h : (c.run p hv (some k)).rc = -1 :=
      (hv_rc_cases c p hv (some k)).1.mpr (Or.inr ⟨k, rfl, hk⟩)
    exact ⟨h, hv_fail_cont c p hv (some k) h⟩
  · rw [(hv_rc_cases c p hv (some "")).1]
    simp

/-- Instances of the amended C5, one for each helper, on a hash that already has the
immortal `no` under the empty key: the call returns 0 and the entry under `""` is now the
value given: a scalar that reads back as 5 for `hv_store_int`, as the string for
`hv_store_charp`, the immortal `yes` for `hv_store_bool`, the scalar supplied for
`hv_store_sv`, the fresh scalar for the other helpers. -/
theorem invalid_key_is_null_key_witness :
    ¬ hvEmptyKey.rejects "" ∧
    hv_fetch hvEmptyKey "" = some SVp.sv_no ∧
    ((hv_store_int perl0 hvEmptyKey (some "") 5).rc = 0 ∧
      hv_fetch (hv_store_int perl0 hvEmptyKey (some "") 5).cont "" = some (SVp.cell 0) ∧
      SvIV (hv_store_int perl0 hvEmptyKey (some "") 5).perl (SVp.cell 0) = Run.ok 5) ∧
    ((hv_store_charp perl0 hvEmptyKey (some "") (some "batch")).rc = 0 ∧
      hv_fetch (hv_store_charp perl0 hvEmptyKey (some "") (some "batch")).cont ""
        = some (SVp.cell 0) ∧
      SV2charp (hv_store_charp perl0 hvEmptyKey (some "") (some "batch")).perl (SVp.cell 0)
        = Run.ok "batch") ∧
    ((hv_store_bool perl0 hvEmptyKey (some "") true).rc = 0 ∧
      hv_fetch (hv_store_bool perl0 hvEmptyKey (some "") true).cont "" = some SVp.sv_yes) ∧
    ((hv_store_sv perl0 hvEmptyKey (some "") SVp.sv_yes).rc = 0 ∧
      hv_fetch (hv_store_sv perl0 hvEmptyKey (some "") SVp.sv_yes).cont "" = some SVp.sv_yes) ∧
    ((hv_store_uint8_t perl0 hvEmptyKey (some "") 7).rc = 0 ∧
      hv_fetch (hv_store_uint8_t perl0 hvEmptyKey (some "") 7).cont "" = some (SVp.cell 0)) ∧
    ((hv_store_uint16_t perl0 hvEmptyKey (some "") 7).rc = 0 ∧
      hv_fetch (hv_store_uint16_t perl0 hvEmptyKey (some "") 7).cont "" = some (SVp.cell 0)) ∧
    ((hv_store_uint32_t perl0 hvEmptyKey (some "") 7).rc = 0 ∧
      hv_fetch (hv_store_uint32_t perl0 hvEmptyKey (some "") 7).cont "" = some (SVp.cell 0)) ∧
    ((hv_store_uint64_t perl0 hvEmptyKey (some "") 7).rc = 0 ∧
      hv_fetch (hv_store_uint64_t perl0 hvEmptyKey (some "") 7).cont "" = some (SVp.cell 0)) ∧
    ((hv_store_time_t perl0 hvEmptyKey (some "") 7).rc = 0 ∧
      hv_fetch (hv_store_time_t perl0 hvEmptyKey (some "") 7).cont "" = some (SVp.cell 0)) ∧
    ((hv_store_ptr perl0 hvEmptyKey (some "") 0x7f00).rc = 0 ∧
      hv_fetch (hv_store_ptr perl0 hvEmptyKey (some "") 0x7f00).cont "" = some (SVp.cell 0)) :=
  have h : ¬ hvEmptyKey.rejects "" := by
    rw [hv_rejects_iff]
    simp [hvEmptyKey]
  have hi := (invalid_key_is_null_key (HvCall.int 5) perl0 hvEmptyKey).2.2.2 h
  have hc := (invalid_key_is_null_key (HvCall.charp (some "batch")) perl0 hvEmptyKey).2.2.2 h
  have hb := (invalid_key_is_null_key (HvCall.bool true) perl0 hvEmptyKey).2.2.2 h
  have hs := (invalid_key_is_null_key (HvCall.sv SVp.sv_yes) perl0 hvEmptyKey).2.2.2 h
  have h8 := (invalid_key_is_null_key (HvCall.uint8_t 7) perl0 hvEmptyKey).2.2.2 h
  have h16 := (invalid_key_is_null_key (HvCall.uint16_t 7) perl0 hvEmptyKey).2.2.2 h
  have h32 := (invalid_key_is_null_key (HvCall.uint32_t 7) perl0 hvEmptyKey).2.2.2 h
  have h64 := (invalid_key_is_null_key (HvCall.uint64_t 7) perl0 hvEmptyKey).2.2.2 h
  have ht := (invalid_key_is_null_key (HvCall.time_t 7) perl0 hvEmptyKey).2.2.2 h
  have hp := (invalid_key_is_null_key (HvCall.ptr 0x7f00) perl0 hvEmptyKey).2.2.2 h
  ⟨h, by decide, ⟨hi.1, hi.2.1, hi.2.2.1 (by decide) (by decide)⟩, ⟨hc.1, hc.2.1, hc.2.2.1⟩,
    ⟨hb.1, hb.2.1⟩, ⟨hs.1, hs.2.1⟩, ⟨h8.1, h8.2.1⟩, ⟨h16.1, h16.2.1⟩, ⟨h32.1, h32.2.1⟩,
    ⟨h64.1, h64.2.1⟩, ⟨ht.1, ht.2.1⟩, ⟨hp.1, hp.2.1⟩⟩

/-- What `hv_store_charp` leaves and how it reads back, on any hash that takes the insert:
a null string leaves an entry with a null value pointer and builds no scalar, and
`FETCH_FIELD` faults on that entry; a string `s` leaves a fresh string scalar holding `s`,
which `FETCH_FIELD` assigns to the field. -/
theorem charp_store_read (p : Perl) (hv : HV) (k : String) (h : ¬ hv.rejects k) :
    ((hv_store_charp p hv (some k) none).rc = 0 ∧
      (hv_store_charp p hv (some k) none).perl = p ∧
      hv_fetch (hv_store_charp p hv (some k) none).cont k = some SVp.null ∧
      ∀ (r : Record) (required : Bool),
        FETCH_FIELD (hv_store_charp p hv (some k) none).perl
          (hv_store_charp p hv (some k) none).cont r k FieldType.charp required = Run.fault) ∧
    (∀ s : String,
      (hv_store_charp p hv (some k) (some s)).rc = 0 ∧
      (hv_store_charp p hv (some k) (some s)).perl.heap
        = p.heap ++ [{ refcnt := 1, body := Body.pv s, stash := none }] ∧
      hv_fetch (hv_store_charp p hv (some k) (some s)).cont k = some (SVp.cell p.heap.length) ∧
      ∀ (r : Record) (required : Bool),
        FETCH_FIELD (hv_store_charp p hv (some k) (some s)).perl
            (hv_store_charp p hv (some k) (some s)).cont r k FieldType.charp required
          = Run.ok { perl := (hv_store_charp p hv (some k) (some s)).perl,
                     hv := (hv_store_charp p hv (some k) (some s)).cont,
                     flow := Flow.next (r.assign k (NVal.charp (some s))) }) := by
  have hacc := accepts_of_not_rejects hv k h
  refine ⟨?_, fun s => ?_⟩
  · have hn := hv_stores_value (HvCall.charp none) p hv k h
    have hp : (hv_store_charp p hv (some k) none).perl = p := by
      rw [hv_store_charp_none, hvTail_ok _ hv k hacc]
    exact ⟨hn.1, hp, hn.2.1, fun r required => fetch_field_null_entry _ _ r k _ required hn.2.1⟩
  · have hs := hv_stores_value (HvCall.charp (some s)) p hv k h
    have hp : (hv_store_charp p hv (some k) (some s)).perl.heap
        = p.heap ++ [{ refcnt := 1, body := Body.pv s, stash := none }] := by
      rw [hv_store_charp_some, hvTail_ok _ hv k hacc]
      rfl
    have hf : hv_fetch (hv_store_charp p hv (some k) (some s)).cont k
        = some (SVp.cell p.heap.length) := hs.2.1
    have hread : SV2charp (hv_store_charp p hv (some k) (some s)).perl (SVp.cell p.heap.length)
        = Run.ok s := hs.2.2.1
    refine ⟨hs.1, hp, hf, fun r required => ?_⟩
    apply FETCH_FIELD_present _ _ _ _ _ _ _ _ hf
    simp only [convert, hread, Run.map]

/-- C6, the code at the failing input: `hv_store_charp(hv, "name", NULL)` on an empty hash
returns 0, builds no scalar and leaves the key `name` with a null value pointer; reading
that entry back with `SV2charp`, as `FETCH_FIELD` does for the type `charp`, dereferences
the null pointer: the read faults instead of giving an absent string.  The empty string
written the same way is read back as the present string `""`. -/
theorem null_string_read_back_faults :
    (hv_store_charp perl0 hvOpen (some "name") none).rc = 0 ∧
    (hv_store_charp perl0 hvOpen (some "name") none).perl.heap = [] ∧
    hv_fetch (hv_store_charp perl0 hvOpen (some "name") none).cont "name" = some SVp.null ∧
    SV2charp (hv_store_charp perl0 hvOpen (some "name") none).perl SVp.null = Run.fault ∧
    FETCH_FIELD (hv_store_charp perl0 hvOpen (some "name") none).perl
      (hv_store_charp perl0 hvOpen (some "name") none).cont rec0 "name" FieldType.charp false
      = Run.fault ∧
    FETCH_FIELD (hv_store_charp perl0 hvOpen (some "name") none).perl
      (hv_store_charp perl0 hvOpen (some "name") none).cont rec0 "name" FieldType.charp true
      = Run.fault ∧
    (hv_store_charp perl0 hvOpen (some "name") (some "")).rc = 0 ∧
    hv_fetch (hv_store_charp perl0 hvOpen (some "name") (some "")).cont "name"
      = some (SVp.cell 0) ∧
    SV2charp (hv_store_charp perl0 hvOpen (some "name") (some "")).perl (SVp.cell 0)
      = Run.ok "" ∧
    FETCH_FIELD (hv_store_charp perl0 hvOpen (some "name") (some "")).perl
      (hv_store_charp perl0 hvOpen (some "name") (some "")).cont rec0 "name" FieldType.charp false
      = Run.ok { perl := (hv_store_charp perl0 hvOpen (some "name") (some "")).perl,
                 hv := (hv_store_charp perl0 hvOpen (some "name") (some "")).cont,
                 flow := Flow.next (rec0.assign "name" (NVal.charp (some ""))) } := by
  refine ⟨by decide, by decide, by decide, by decide, rfl, rfl, by decide, by decide,
    by decide, rfl⟩

/-- C8, counterexample: with the empty string as key, `hv_store_ptr` on a hash that takes
the insert blesses the reference into the package `main`: the type tag read back is
`main`, not the key. -/
theorem empty_key_blessed_into_main :
    (hv_store_ptr perl0 hvOpen (some "") 0x7f00).rc = 0 ∧
    hv_fetch (hv_store_ptr perl0 hvOpen (some "") 0x7f00).cont "" = some (SVp.cell 0) ∧
    blessedPackage (hv_store_ptr perl0 hvOpen (some "") 0x7f00).perl (SVp.cell 0)
      = some "main" ∧
    blessedPackage (hv_store_ptr perl0 hvOpen (some "") 0x7f00).perl (SVp.cell 0)
      ≠ some "" := by
  decide

/-- C8, amended: on a hash that takes the insert under a non-null key, `hv_store_ptr` with
a null pointer returns 0, builds no scalar and leaves an entry whose value pointer is
null; with a non-null pointer it returns 0 and leaves an entry pointing to a reference
blessed into the package the key resolves to as a class name, whose referent holds the
pointer as an integer.  The type tag is `main` for the empty key, and it is the key string
when the key is not empty and the interpreter reports that package under the key itself.
`SV2ptr` on the entry, taken back to a pointer, is the pointer stored (the same number
when the pointer is below 2^63), and `FETCH_FIELD` with the type `ptr` assigns it. -/
theorem opaque_reference_fidelity (p : Perl) (hv : HV) (k : String) (h : ¬ hv.rejects k) :
    ((hv_store_ptr p hv (some k) 0).rc = 0 ∧
      (hv_store_ptr p hv (some k) 0).perl = p ∧
      hv_fetch (hv_store_ptr p hv (some k) 0).cont k = some SVp.null) ∧
    (∀ ptr : Nat, ptr ≠ 0 → ptr < 2 ^ 64 →
      (hv_store_ptr p hv (some k) ptr).rc = 0 ∧
      ∃ sv, hv_fetch (hv_store_ptr p hv (some k) ptr).cont k = some sv ∧
        blessedPackage (hv_store_ptr p hv (some k) ptr).perl sv = some (gv_stashpv p k) ∧
        (k = "" → blessedPackage (hv_store_ptr p hv (some k) ptr).perl sv = some "main") ∧
        (k ≠ "" → p.stashName k = k →
          blessedPackage (hv_store_ptr p hv (some k) ptr).perl sv = some k) ∧
        (∃ t, SvRV (hv_store_ptr p hv (some k) ptr).perl sv = Run.ok t ∧
          SvBody (hv_store_ptr p hv (some k) ptr).perl t = some (Body.iv (toIV ptr))) ∧
        (SV2ptr (hv_store_ptr p hv (some k) ptr).perl sv).map (fun n : Int => castU 64 n)
          = Run.ok ptr ∧
        (ptr < 2 ^ 63 → SV2ptr (hv_store_ptr p hv (some k) ptr).perl sv = Run.ok (ptr : Int)) ∧
        ∀ (r : Record) (required : Bool),
          FETCH_FIELD (hv_store_ptr p hv (some k) ptr).perl
              (hv_store_ptr p hv (some k) ptr).cont r k FieldType.ptr required
            = Run.ok { perl := (hv_store_ptr p hv (some k) ptr).perl,
                       hv := (hv_store_ptr p hv (some k) ptr).cont,
                       flow := Flow.next (r.assign k (NVal.ptr ptr)) }) := by
  have hacc := accepts_of_not_rejects hv k h
  refine ⟨?_, ?_⟩
  · rw [hv_store_ptr_null, hvTail_ok _ hv k hacc]
    exact ⟨rfl, rfl, hv_fetch_cons hv k _ _⟩
  · intro ptr hp hlt
    rw [hv_store_ptr_nonnull p hv (some k) ptr hp, hvTail_ok _ hv k hacc]
    obtain ⟨hrv, hiv, hbl, hptr⟩ := ptr_cells_read p ((some k).map (gv_stashpv p)) ptr
    have hbl2 : blessedPackage { p with heap := p.heap ++
          [{ refcnt := 1, body := Body.rv (p.heap.length + 1), stash := none },
           { refcnt := 1, body := Body.iv (toIV ptr),
             stash := (some k).map (gv_stashpv p) }] } (SVp.cell p.heap.length)
        = some (gv_stashpv p k) := hbl
    refine ⟨rfl, SVp.cell p.heap.length, hv_fetch_cons hv k _ _, hbl2, ?_, ?_, ?_, ?_, ?_, ?_⟩
    · intro hk
      rw [hbl2, gv_stashpv, if_pos hk]
    · intro hk hname
      rw [hbl2, gv_stashpv, if_neg hk, hname]
    · exact ⟨SVp.cell (p.heap.length + 1), by simp only [SvRV, hrv], hiv⟩
    · simp only [hptr, Run.map, castU_toIV ptr hlt]
    · intro h63
      rw [hptr, toIV_of_lt ptr h63]
    · intro r required
      apply FETCH_FIELD_present _ _ _ _ _ _ _ _ (hv_fetch_cons hv k _ _)
      simp only [convert, hptr, Run.map, castU_toIV ptr hlt]

/-- Instance of the amended C8: the pointer 0x7f00 stored under the key `db_conn` comes
back with the tag `db_conn`, and a null pointer leaves a null value pointer. -/
theorem opaque_reference_fidelity_witness :
    ¬ hvOpen.rejects "db_conn" ∧ perl0.stashName "db_conn" = "db_conn" ∧
    ((hv_store_ptr perl0 hvOpen (some "db_conn") 0).rc = 0 ∧
      hv_fetch (hv_store_ptr perl0 hvOpen (some "db_conn") 0).cont "db_conn" = some SVp.null) ∧
    (hv_store_ptr perl0 hvOpen (some "db_conn") 0x7f00).rc = 0 ∧
    ∃ sv, hv_fetch (hv_store_ptr perl0 hvOpen (some "db_conn") 0x7f00).cont "db_conn" = some sv ∧
      blessedPackage (hv_store_ptr perl0 hvOpen (some "db_conn") 0x7f00).perl sv
        = some "db_conn" ∧
      (SV2ptr (hv_store_ptr perl0 hvOpen (some "db_conn") 0x7f00).perl sv).map
        (fun n : Int => castU 64 n) = Run.ok 0x7f00 :=
  have h := hvOpen_accepts "db_conn"
  have hn : perl0.stashName "db_conn" = "db_conn" := by decide
  have h0 := (opaque_reference_fidelity perl0 hvOpen "db_conn" h).1
  have h3 := (opaque_reference_fidelity perl0 hvOpen "db_conn" h).2 0x7f00 (by decide) (by decide)
  ⟨h, hn, ⟨h0.1, h0.2.2⟩, h3.1,
    h3.2.imp (fun _ hx => ⟨hx.1, hx.2.2.2.1 (by decide) hn, hx.2.2.2.2.2.1⟩)⟩

theorem appended_cells (h l : List SV) (n : Nat) (hl : ∀ sv ∈ l, sv.refcnt = n) :
    (∀ a, a < h.length → (h ++ l)[a]? = h[a]?) ∧
    (∀ a sv, h.length ≤ a → (h ++ l)[a]? = some sv → sv.refcnt = n) := by
  refine ⟨fun a ha => List.getElem?_append_left ha, fun a sv ha hs => ?_⟩
  rw [List.getElem?_append_right ha] at hs
  exact hl sv (List.getElem?_mem hs)

theorem decAt_fresh_ref (h : List SV) (n : Int) (st : Option String) (fuel : Nat) :
    decAt (fuel + 2)
        (h ++ [{ refcnt := 1, body := Body.rv (h.length + 1), stash := none },
               { refcnt := 1, body := Body.iv n, stash := st }]) h.length
      = h ++ [{ refcnt := 0, body := Body.rv (h.length + 1), stash := none },
              { refcnt := 0, body := Body.iv n, stash := st }] := by
  have hset : (h ++ [({ refcnt := 1, body := Body.rv (h.length + 1), stash := none } : SV),
        { refcnt := 1, body := Body.iv n, stash := st }]).set h.length
        { refcnt := 0, body := Body.rv (h.length + 1), stash := none }
      = h ++ [{ refcnt := 0, body := Body.rv (h.length + 1), stash := none },
              { refcnt := 1, body := Body.iv n, stash := st }] := by
    rw [List.set_append_right _ _ (le_refl _)]
    simp
  have hset2 : (h ++ [({ refcnt := 0, body := Body.rv (h.length + 1), stash := none } : SV),
        { refcnt := 1, body := Body.iv n, stash := st }]).set (h.length + 1)
        { refcnt := 0, body := Body.iv n, stash := st }
      = h ++ [{ refcnt := 0, body := Body.rv (h.length + 1), stash := none },
              { refcnt := 0, body := Body.iv n, stash := st }] := by
    rw [List.set_append_right _ _ (Nat.le_succ _)]
    simp
  simp only [decAt, heap2_fst, heap2_snd, hset, hset2]
  simp

theorem run_shape_one (c : HvCall) (p : Perl) (hc : c.constructs = 1) :
    ∃ b, (∀ t, b ≠ Body.rv t) ∧ ∀ hv key, c.run p hv key = hvTail (newSV p b) hv key := by
  cases c with
  | charp val =>
    cases val with
    | none => simp [HvCall.constructs] at hc
    | some s => exact ⟨Body.pv s, by simp, fun _ _ => rfl⟩
  | uint64_t val =>
    refine ⟨if val = castU 64 INFINITE then Body.iv (toIV INFINITE)
      else if val = castU 64 NO_VAL then Body.iv (toIV NO_VAL) else Body.uv (toUV val), ?_, ?_⟩
    · intro t; split_ifs <;> simp
    · intro hv key
      simp only [HvCall.run, hv_store_uint64_t, newSViv, newSVuv, hvTail]
      split_ifs <;> rfl
  | uint32_t val =>
    refine ⟨if val = castU 32 INFINITE then Body.iv (toIV INFINITE)
      else if val = castU 32 NO_VAL then Body.iv (toIV NO_VAL) else Body.uv (toUV val), ?_, ?_⟩
    · intro t; split_ifs <;> simp
    · intro hv key
      simp only [HvCall.run, hv_store_uint32_t, newSViv, newSVuv, hvTail]
      split_ifs <;> rfl
  | uint16_t val =>
    refine ⟨if val = castU 16 INFINITE then Body.iv (toIV INFINITE)
      else if val = castU 16 NO_VAL then Body.iv (toIV NO_VAL) else Body.uv (toUV val), ?_, ?_⟩
    · intro t; split_ifs <;> simp
    · intro hv key
      simp only [HvCall.run, hv_store_uint16_t, newSViv, newSVuv, hvTail]
      split_ifs <;> rfl
  | uint8_t val =>
    refine ⟨if val = castU 8 INFINITE then Body.iv (toIV INFINITE)
      else if val = castU 8 NO_VAL then Body.iv (toIV NO_VAL) else Body.uv (toUV val), ?_, ?_⟩
    · intro t; split_ifs <;> simp
    · intro hv key
      simp only [HvCall.run, hv_store_uint8_t, newSViv, newSVuv, hvTail]
      split_ifs <;> rfl
  | int val => exact ⟨Body.iv (toIV val), by simp, fun _ _ => rfl⟩
  | bool val => simp [HvCall.constructs] at hc
  | time_t val => exact ⟨Body.uv (toUV val), by simp, fun _ _ => rfl⟩
  | sv x => simp [HvCall.constructs] at hc
  | ptr x =>
    simp only [HvCall.constructs] at hc
    split_ifs at hc
    exact absurd hc (by decide)

theorem run_shape_zero (c : HvCall) (p : Perl) (hv : HV) (key : Option String)
    (hc : c.constructs = 0) : (c.run p hv key).perl = p := by
  cases c with
  | charp val =>
    cases val with
    | some s => simp [HvCall.constructs] at hc
    | none =>
      cases key with
      | none => rfl
      | some k =>
        simp only [HvCall.run, hv_store_charp]
        cases hv_store hv k SVp.null <;> rfl
  | bool val =>
    cases key with
    | none => rfl
    | some k =>
      simp only [HvCall.run, hv_store_bool]
      cases hv_store hv k (if val then SVp.sv_yes else SVp.sv_no) <;> rfl
  | sv x =>
    cases key with
    | none => rfl
    | some k =>
      simp only [HvCall.run, hv_store_sv]
      cases hv_store hv k x <;> rfl
  | ptr x =>
    simp only [HvCall.constructs] at hc
    split_ifs at hc with hx
    subst hx
    cases key with
    | none => rfl
    | some k =>
      simp only [HvCall.run, hv_store_ptr_null, hvTail]
      cases hv_store hv k SVp.null <;> rfl
  | uint64_t val => simp [HvCall.constructs] at hc
  | uint32_t val => simp [HvCall.constructs] at hc
  | uint16_t val => simp [HvCall.constructs] at hc
  | uint8_t val => simp [HvCall.constructs] at hc
  | int val => simp [HvCall.constructs] at hc
  | time_t val => simp [HvCall.constructs] at hc

theorem constructs_cases (c : HvCall) :
    c.constructs = 0 ∨ c.constructs = 1 ∨ ∃ x, x ≠ 0 ∧ c = HvCall.ptr x ∧ c.constructs = 2 := by
  cases c with
  | charp val => cases val <;> simp [HvCall.constructs]
  | ptr x =>
    by_cases hx : x = 0
    · simp [HvCall.constructs, hx]
    · exact Or.inr (Or.inr ⟨x, hx, rfl, by simp [HvCall.constructs, hx]⟩)
  | _ => simp [HvCall.constructs]

theorem hvTail_rc_fail (r : Perl × SVp) (hv : HV) (key : Option String)
    (h : (hvTail r hv key).rc = -1) : (hvTail r hv key).perl = SvREFCNT_dec r.1 r.2 := by
  cases key with
  | none => rfl
  | some k =>
    simp only [hvTail] at h ⊢
    cases hs : hv_store hv k r.2 with
    | none => rfl
    | some hv1 => rw [hs] at h; simp at h

theorem release_fresh_ref (p : Perl) (n : Int) (st : Option String) :
    SvREFCNT_dec
        { p with heap := p.heap ++
            [{ refcnt := 1, body := Body.rv (p.heap.length + 1), stash := none },
             { refcnt := 1, body := Body.iv n, stash := st }] } (SVp.cell p.heap.length)
      = { p with heap := p.heap ++
            [{ refcnt := 0, body := Body.rv (p.heap.length + 1), stash := none },
             { refcnt := 0, body := Body.iv n, stash := st }] } := by
  simp only [SvREFCNT_dec]
  rw [show (p.heap ++ [({ refcnt := 1, body := Body.rv (p.heap.length + 1), stash := none } : SV),
        { refcnt := 1, body := Body.iv n, stash := st }]).length + 1
        = (p.heap.length + 1) + 2 by simp]
  rw [decAt_fresh_ref]

theorem av_run_shape (c : AvCall) (p : Perl) :
    ∃ b, (∀ t, b ≠ Body.rv t) ∧ ∀ av index, c.run p av index = avTail (newSV p b) av index := by
  cases c with
  | uint16_t val =>
    refine ⟨if val = castU 16 INFINITE then Body.iv (toIV INFINITE)
      else if val = castU 16 NO_VAL then Body.iv (toIV NO_VAL) else Body.iv (toIV val), ?_, ?_⟩
    · intro t; split_ifs <;> simp
    · intro av index
      simp only [AvCall.run, av_store_uint16_t, newSViv, avTail]
      split_ifs <;> rfl
  | uint32_t val =>
    refine ⟨if val = castU 32 INFINITE then Body.iv (toIV INFINITE)
      else if val = castU 32 NO_VAL then Body.iv (toIV NO_VAL) else Body.iv (toIV val), ?_, ?_⟩
    · intro t; split_ifs <;> simp
    · intro av index
      simp only [AvCall.run, av_store_uint32_t, newSViv, avTail]
      split_ifs <;> rfl
  | int val => exact ⟨Body.iv (toIV val), by simp, fun _ _ => rfl⟩

theorem hv_fail_heap (c : HvCall) (p : Perl) (hv : HV) (key : Option String)
    (h : (c.run p hv key).rc = -1) :
    ∃ l : List SV, (c.run p hv key).perl.heap = p.heap ++ l ∧ l.length = c.constructs ∧
      ∀ sv ∈ l, sv.refcnt = 0 := by
  rcases constructs_cases c with hc | hc | ⟨x, hx, rfl, hc⟩
  · exact ⟨[], by rw [run_shape_zero c p hv key hc]; simp, by simp [hc], by simp⟩
  · obtain ⟨b, hb, he⟩ := run_shape_one c p hc
    rw [he] at h ⊢
    rw [hvTail_rc_fail _ hv key h, release_fresh p b hb]
    exact ⟨[{ refcnt := 0, body := b, stash := none }], rfl, by simp [hc], by simp⟩
  · simp only [HvCall.run] at h ⊢
    rw [hv_store_ptr_nonnull p hv key x hx] at h ⊢
    rw [hvTail_rc_fail _ hv key h, release_fresh_ref]
    exact ⟨_, rfl, by simp [hc], by simp⟩

theorem hv_ok_heap (c : HvCall) (p : Perl) (hv : HV) (key : Option String)
    (h : (c.run p hv key).rc = 0) :
    ∃ l : List SV, (c.run p hv key).perl.heap = p.heap ++ l ∧ l.length = c.constructs ∧
      ∀ sv ∈ l, sv.refcnt = 1 := by
  obtain ⟨k, rfl, hk⟩ := (hv_rc_cases c p hv key).2.mp h
  have hacc := accepts_of_not_rejects hv k hk
  rcases constructs_cases c with hc | hc | ⟨x, hx, rfl, hc⟩
  · exact ⟨[], by rw [run_shape_zero c p hv (some k) hc]; simp, by simp [hc], by simp⟩
  · obtain ⟨b, _, he⟩ := run_shape_one c p hc
    rw [he, hvTail_ok _ hv k hacc]
    exact ⟨[{ refcnt := 1, body := b, stash := none }], rfl, by simp [hc], by simp⟩
  · simp only [HvCall.run]
    rw [hv_store_ptr_nonnull p hv (some k) x hx, hvTail_ok _ hv k hacc]
    exact ⟨_, rfl, by simp [hc], by simp⟩

/-- C7: with a reference count on every scalar (1 on construction; a refused insert takes
no reference), when one of the ten `hv_store_*` helpers returns -1 the arena has grown by
exactly the scalars the call constructed (none for `bool`, `sv`, a null string or a null
pointer, two for a non-null pointer, one otherwise), every one of them has count 0, and
every scalar that was there before is untouched; the same holds for the three
`av_store_*` helpers, which construct one scalar.  When the call returns 0 the scalars it
constructed have count 1.  `hv_store_bool` and `hv_store_sv` never change the
interpreter state, so the count of the scalar given to `hv_store_sv` is unchanged. -/
theorem insertion_failure_no_leak (p : Perl) :
    (∀ (c : HvCall) (hv : HV) (key : Option String), (c.run p hv key).rc = -1 →
      (c.run p hv key).perl.heap.length = p.heap.length + c.constructs ∧
      (∀ a, a < p.heap.length → (c.run p hv key).perl.heap[a]? = p.heap[a]?) ∧
      (∀ a sv, p.heap.length ≤ a → (c.run p hv key).perl.heap[a]? = some sv → sv.refcnt = 0)) ∧
    (∀ (c : HvCall) (hv : HV) (key : Option String), (c.run p hv key).rc = 0 →
      (c.run p hv key).perl.heap.length = p.heap.length + c.constructs ∧
      (∀ a, a < p.heap.length → (c.run p hv key).perl.heap[a]? = p.heap[a]?) ∧
      (∀ a sv, p.heap.length ≤ a → (c.run p hv key).perl.heap[a]? = some sv → sv.refcnt = 1)) ∧
    (∀ (val : Bool) (hv : HV) (key : Option String), (hv_store_bool p hv key val).perl = p) ∧
    (∀ (x : SVp) (hv : HV) (key : Option String), (hv_store_sv p hv key x).perl = p) ∧
    (∀ (c : AvCall) (av : AV) (index : Int), (c.run p av index).rc = -1 →
      (c.run p av index).perl.heap.length = p.heap.length + 1 ∧
      (∀ a, a < p.heap.length → (c.run p av index).perl.heap[a]? = p.heap[a]?) ∧
      (∀ a sv, p.heap.length ≤ a → (c.run p av index).perl.heap[a]? = some sv →
        sv.refcnt = 0)) := by
  refine ⟨fun c hv key h => ?_, fun c hv key h => ?_, fun val hv key => ?_, fun x hv key => ?_,
    fun c av index h => ?_⟩
  · obtain ⟨l, he, hl, hz⟩ := hv_fail_heap c p hv key h
    rw [he]
    exact ⟨by simp [hl], appended_cells p.heap l 0 hz⟩
  · obtain ⟨l, he, hl, hz⟩ := hv_ok_heap c p hv key h
    rw [he]
    exact ⟨by simp [hl], appended_cells p.heap l 1 hz⟩
  · exact run_shape_zero (HvCall.bool val) p hv key rfl
  · exact run_shape_zero (HvCall.sv x) p hv key rfl
  · obtain ⟨b, hb, he⟩ := av_run_shape c p
    rw [he] at h ⊢
    rw [avTail_fail _ av index h, release_fresh p b hb]
    exact ⟨by simp, appended_cells p.heap [{ refcnt := 0, body := b, stash := none }] 0
      (by simp)⟩

/-- Instance of C7: `hv_store_ptr` on a hash that refuses the insert returns -1 and both
scalars it built, the reference and its referent, are released. -/
theorem insertion_failure_no_leak_witness :
    ((HvCall.ptr 0x7f00).run perl0 hvShut (some "k")).rc = -1 ∧
    ((HvCall.ptr 0x7f00).run perl0 hvShut (some "k")).perl.heap.length = 2 ∧
    ∀ a sv, 0 ≤ a → ((HvCall.ptr 0x7f00).run perl0 hvShut (some "k")).perl.heap[a]? = some sv →
      sv.refcnt = 0 :=
  have h := (insertion_failure_no_leak perl0).1 (HvCall.ptr 0x7f00) hvShut (some "k") (by decide)
  ⟨by decide, h.1, h.2.2⟩

theorem hvTail_cell (p : Perl) (b : Body) (hb : ∀ t, b ≠ Body.rv t) (hv : HV)
    (key : Option String) :
    ∃ c, (hvTail (newSV p b) hv key).perl.heap
      = p.heap ++ [{ refcnt := c, body := b, stash := none }] := by
  cases key with
  | none => exact ⟨0, by simp only [hvTail]; rw [release_fresh p b hb]⟩
  | some k =>
    simp only [hvTail]
    cases hv_store hv k (newSV p b).2 with
    | none => exact ⟨0, by simp only []; rw [release_fresh p b hb]⟩
    | some hv1 => exact ⟨1, rfl⟩

theorem avTail_cell (p : Perl) (b : Body) (hb : ∀ t, b ≠ Body.rv t) (av : AV) (index : Int) :
    ∃ c, (avTail (newSV p b) av index).perl.heap
      = p.heap ++ [{ refcnt := c, body := b, stash := none }] := by
  simp only [avTail]
  cases av_store av (toI32 index) (newSV p b).2 with
  | none => exact ⟨0, by simp only []; rw [release_fresh p b hb]⟩
  | some av1 => exact ⟨1, rfl⟩

theorem sentinel_values (W : Nat) (hW : W = 8 ∨ W = 16 ∨ W = 32 ∨ W = 64) :
    castU W INFINITE = (if W = 8 then 255 else if W = 16 then 65535 else 4294967295) ∧
    castU W NO_VAL = (if W = 8 then 254 else if W = 16 then 65534 else 4294967294) := by
  rcases hW with rfl | rfl | rfl | rfl <;> decide

/-- C9, counterexample: 2^63 is a 64-bit value that is not a sentinel, and the two
constructors do not build the same number for it: the signed constructor builds -2^63,
the unsigned one, which `hv_store_uint64_t` calls, builds 2^63. -/
theorem signed_constructor_wraps :
    (9223372036854775808 : Nat) < 2 ^ 64 ∧
    ¬ isSentinel 64 9223372036854775808 ∧
    (newSViv perl0 ((9223372036854775808 : Nat) : Int)).1.heap[0]?
      = some { refcnt := 1, body := Body.iv (-9223372036854775808), stash := none } ∧
    (Body.iv (-9223372036854775808)).num ≠ ((9223372036854775808 : Nat) : Int) ∧
    (newSVuv perl0 ((9223372036854775808 : Nat) : Int)).1.heap[0]?
      = some { refcnt := 1, body := Body.uv 9223372036854775808, stash := none } ∧
    (hv_store_uint64_t perl0 hvOpen (some "k") 9223372036854775808).perl.heap[0]?
      = some { refcnt := 1, body := Body.uv 9223372036854775808, stash := none } := by
  decide

/-- C9, amended: in `hv_store_uint<W>_t` (8, 16, 32, 64 bits) the scalar built for a
`W`-bit `val` comes from the signed constructor exactly when `val` is `INFINITE` or
`NO_VAL` cut to `W` bits and from the unsigned constructor otherwise; `av_store_uint16_t`
and `av_store_uint32_t` always use the signed constructor.  For a `val` that is not such a
sentinel the number each of the six helpers stores is `val`, non-negative.  The two
constructors build the same number, `val`, for every value below 2^63, so for every 8, 16
and 32-bit value; for a 64-bit value from 2^63 on the unsigned constructor builds `val`
and the signed one builds `val - 2^64`. -/
theorem signed_unsigned_choice (p : Perl) :
    (∀ (W val : Nat) (hv : HV) (key : Option String), W = 8 ∨ W = 16 ∨ W = 32 ∨ W = 64 →
      val < 2 ^ W →
      ∃ sv, (hv_store_uint W p hv key val).perl.heap[p.heap.length]? = some sv ∧
        ((∃ n, sv.body = Body.iv n) ↔ isSentinel W val) ∧
        ((∃ n, sv.body = Body.uv n) ↔ ¬ isSentinel W val) ∧
        (¬ isSentinel W val → sv.body = Body.uv val ∧ sv.body.num = (val : Int))) ∧
    (∀ (W val : Nat) (av : AV) (index : Int), W = 16 ∨ W = 32 → val < 2 ^ W →
      ∃ sv n, (av_store_uint W p av index val).perl.heap[p.heap.length]? = some sv ∧
        sv.body = Body.iv n ∧ 0 ≤ n ∧ (¬ isSentinel W val → n = val)) ∧
    (∀ val : Nat, val < 2 ^ 63 →
      ∃ s u, (newSViv p val).1.heap[p.heap.length]? = some s ∧
        (newSVuv p val).1.heap[p.heap.length]? = some u ∧
        s.body = Body.iv val ∧ u.body = Body.uv val ∧
        s.body.num = (val : Int) ∧ u.body.num = (val : Int)) ∧
    (∀ val : Nat, 2 ^ 63 ≤ val → val < 2 ^ 64 →
      ∃ s u, (newSViv p val).1.heap[p.heap.length]? = some s ∧
        (newSVuv p val).1.heap[p.heap.length]? = some u ∧
        s.body = Body.iv ((val : Int) - 2 ^ 64) ∧ u.body = Body.uv val ∧
        s.body.num = (val : Int) - 2 ^ 64 ∧ u.body.num = (val : Int)) := by
  refine ⟨fun W val hv key hW hval => ?_, fun W val av index hW hval => ?_, fun val hval => ?_,
    fun val hlo hhi => ?_⟩
  · rw [hv_store_uint_eq W hW p hv key val hval]
    obtain ⟨c, hc⟩ := hvTail_cell p (uintBody W val) (uintBody_not_rv W val) hv key
    rw [hc, heap_fresh]
    refine ⟨_, rfl, ?_, ?_, ?_⟩
    · simp only [uintBody, isSentinel]
      split_ifs with h1 h2
      · simp [h1]
      · simp [h2]
      · simp [h1, h2]
    · simp only [uintBody, isSentinel]
      split_ifs with h1 h2
      · simp [h1]
      · simp [h2]
      · simp [h1, h2]
    · intro hs
      simp only [isSentinel, not_or] at hs
      simp [uintBody, hs.1, hs.2, Body.num]
  · rw [av_store_uint_eq W hW p av index val hval]
    obtain ⟨c, hc⟩ := avTail_cell p (avBody W val) (avBody_not_rv W val) av index
    rw [hc, heap_fresh]
    simp only [avBody, isSentinel]
    split_ifs with h1 h2
    · exact ⟨_, INFINITE, rfl, rfl, by decide, fun h => absurd (Or.inl h1) h⟩
    · exact ⟨_, NO_VAL, rfl, rfl, by decide, fun h => absurd (Or.inr h2) h⟩
    · exact ⟨_, val, rfl, rfl, Int.natCast_nonneg val, fun _ => rfl⟩
  · simp only [newSViv, newSVuv, newSV, heap_fresh]
    have h64 : val < 2 ^ 64 := by omega
    exact ⟨_, _, rfl, rfl, by simp [toIV_of_lt val hval], by simp [toUV_of_lt val h64],
      by simp [toIV_of_lt val hval, Body.num], by simp [toUV_of_lt val h64, Body.num]⟩
  · simp only [newSViv, newSVuv, newSV, heap_fresh]
    have hw : toIV (val : Int) = (val : Int) - 2 ^ 64 := by
      unfold toIV
      omega
    exact ⟨_, _, rfl, rfl, by simp [hw], by simp [toUV_of_lt val hhi],
      by simp [hw, Body.num], by simp [toUV_of_lt val hhi, Body.num]⟩

/-- Instances of the amended C9, one for each helper: the scalar built for a sentinel is
signed, the scalar built for another value is unsigned in the hash helpers and signed in
the array helpers, and holds the value. -/
theorem signed_unsigned_choice_witness :
    ((hv_store_uint8_t perl0 hvOpen (some "k") 7).perl.heap[0]?
        = some { refcnt := 1, body := Body.uv 7, stash := none } ∧
      (hv_store_uint8_t perl0 hvOpen (some "k") 0xFF).perl.heap[0]?
        = some { refcnt := 1, body := Body.iv 4294967295, stash := none }) ∧
    ((hv_store_uint16_t perl0 hvOpen (some "k") 7).perl.heap[0]?
        = some { refcnt := 1, body := Body.uv 7, stash := none } ∧
      (hv_store_uint16_t perl0 hvOpen (some "k") 0xFFFE).perl.heap[0]?
        = some { refcnt := 1, body := Body.iv 4294967294, stash := none }) ∧
    ((hv_store_uint32_t perl0 hvOpen (some "k") 7).perl.heap[0]?
        = some { refcnt := 1, body := Body.uv 7, stash := none } ∧
      (hv_store_uint32_t perl0 hvOpen (some "k") 0xFFFFFFFE).perl.heap[0]?
        = some { refcnt := 1, body := Body.iv 4294967294, stash := none }) ∧
    ((hv_store_uint64_t perl0 hvOpen (some "k") 0xFFFFFFFFFFFFFFFF).perl.heap[0]?
        = some { refcnt := 1, body := Body.uv 18446744073709551615, stash := none } ∧
      (hv_store_uint64_t perl0 hvOpen (some "k") 0xFFFFFFFF).perl.heap[0]?
        = some { refcnt := 1, body := Body.iv 4294967295, stash := none }) ∧
    ((av_store_uint16_t perl0 avOpen 0 7).perl.heap[0]?
        = some { refcnt := 1, body := Body.iv 7, stash := none } ∧
      (av_store_uint32_t perl0 avOpen 0 0xFFFFFFFD).perl.heap[0]?
        = some { refcnt := 1, body := Body.iv 4294967293, stash := none }) ∧
    (∃ sv, (hv_store_uint 32 perl0 hvOpen (some "k") 7).perl.heap[perl0.heap.length]? = some sv ∧
      ((∃ n, sv.body = Body.iv n) ↔ isSentinel 32 7) ∧
      ((∃ n, sv.body = Body.uv n) ↔ ¬ isSentinel 32 7) ∧
      (¬ isSentinel 32 7 → sv.body = Body.uv 7 ∧ sv.body.num = ((7 : Nat) : Int))) ∧
    (∃ sv n, (av_store_uint 32 perl0 avOpen 0 0xFFFFFFFD).perl.heap[perl0.heap.length]? = some sv ∧
      sv.body = Body.iv n ∧ 0 ≤ n ∧ (¬ isSentinel 32 0xFFFFFFFD → n = ((0xFFFFFFFD : Nat) : Int))) :=
  ⟨⟨by decide, by decide⟩, ⟨by decide, by decide⟩, ⟨by decide, by decide⟩,
    ⟨by decide, by decide⟩, ⟨by decide, by decide⟩,
    (signed_unsigned_choice perl0).1 32 7 hvOpen (some "k") (by decide) (by decide),
    (signed_unsigned_choice perl0).2.1 32 0xFFFFFFFD avOpen 0 (Or.inr rfl) (by decide)⟩

/-- C10: with a 64-bit host integer, on a hash that takes the insert `hv_store_uint<W>_t`
returns 0 and the number it leaves in the entry differs from the `W`-bit `val` exactly
when `W` is 8 or 16 and `val` is `2^W - 1` or `2^W - 2`.  For 32 and 64 bits it is always
`val`; for 8 and 16 bits it is never `2^W - 1` nor `2^W - 2`: it is `val` with
`val < 2^W - 2`, or `NO_VAL`, or `INFINITE`. -/
theorem canonicalisation_changes_number (W : Nat) (hW : W = 8 ∨ W = 16 ∨ W = 32 ∨ W = 64)
    (p : Perl) (hv : HV) (k : String) (val : Nat) (hval : val < 2 ^ W)
    (hacc : ¬ hv.rejects k) :
    (hv_store_uint W p hv (some k) val).rc = 0 ∧
    ∃ n : Int, hvNum (hv_store_uint W p hv (some k) val) k = some n ∧
      (n ≠ val ↔ (W = 8 ∨ W = 16) ∧ (val = 2 ^ W - 1 ∨ val = 2 ^ W - 2)) ∧
      (W = 32 ∨ W = 64 → n = val) ∧
      (W = 8 ∨ W = 16 → n ≠ ((2 ^ W - 1 : Nat) : Int) ∧ n ≠ ((2 ^ W - 2 : Nat) : Int) ∧
        ((n = val ∧ val < 2 ^ W - 2) ∨ n = (NO_VAL : Int) ∨ n = (INFINITE : Int))) := by
  rw [hv_store_uint_eq W hW p hv (some k) val hval]
  have hrc := (hvTail_accept (newSV p (uintBody W val)) hv k hacc).1
  refine ⟨hrc, ?_⟩
  rw [hvNum_tail p _ hv k hrc]
  have hs := sentinel_values W hW
  rcases hW with rfl | rfl | rfl | rfl
  all_goals
    norm_num at hs hval
    unfold uintBody
    rw [hs.1, hs.2]
    split_ifs with h1 h2
    all_goals
      refine ⟨_, rfl, ?_⟩
      simp only [Body.num, INFINITE, NO_VAL]
      norm_num
      try omega

/-- Instances of C10: the 8 and 16-bit sentinels are stored as 4294967295 and 4294967294,
an ordinary 16-bit value, the 32-bit sentinel and the 64-bit all-ones value are stored as
themselves. -/
theorem canonicalisation_changes_number_witness :
    ((hv_store_uint 8 perl0 hvOpen (some "k") 0xFF).rc = 0 ∧
      hvNum (hv_store_uint 8 perl0 hvOpen (some "k") 0xFF) "k" = some 4294967295) ∧
    ((hv_store_uint 8 perl0 hvOpen (some "k") 0xFE).rc = 0 ∧
      hvNum (hv_store_uint 8 perl0 hvOpen (some "k") 0xFE) "k" = some 4294967294) ∧
    ((hv_store_uint 16 perl0 hvOpen (some "k") 0xFFFF).rc = 0 ∧
      hvNum (hv_store_uint 16 perl0 hvOpen (some "k") 0xFFFF) "k" = some 4294967295) ∧
    ((hv_store_uint 16 perl0 hvOpen (some "k") 0xFFFD).rc = 0 ∧
      hvNum (hv_store_uint 16 perl0 hvOpen (some "k") 0xFFFD) "k" = some 65533) ∧
    ((hv_store_uint 32 perl0 hvOpen (some "k") 0xFFFFFFFF).rc = 0 ∧
      hvNum (hv_store_uint 32 perl0 hvOpen (some "k") 0xFFFFFFFF) "k" = some 4294967295) ∧
    ((hv_store_uint 64 perl0 hvOpen (some "k") 0xFFFFFFFFFFFFFFFF).rc = 0 ∧
      hvNum (hv_store_uint 64 perl0 hvOpen (some "k") 0xFFFFFFFFFFFFFFFF) "k"
        = some 18446744073709551615) := by
  have hk := hvOpen_accepts "k"
  refine ⟨⟨(canonicalisation_changes_number 8 (by decide) perl0 hvOpen "k" 0xFF (by decide)
      hk).1, by decide⟩,
    ⟨(canonicalisation_changes_number 8 (by decide) perl0 hvOpen "k" 0xFE (by decide) hk).1,
      by decide⟩,
    ⟨(canonicalisation_changes_number 16 (by decide) perl0 hvOpen "k" 0xFFFF (by decide)
      hk).1, by decide⟩, ?_, ?_, ?_⟩
  · obtain ⟨hrc, n, h1, h2, _, _⟩ := canonicalisation_changes_number 16 (by decide) perl0
      hvOpen "k" 0xFFFD (by decide) hk
    refine ⟨hrc, ?_⟩
    have hn : n = ((0xFFFD : Nat) : Int) := by
      by_contra hne
      have := h2.mp hne
      omega
    rw [h1, hn]
    rfl
  · obtain ⟨hrc, n, h1, _, h3, _⟩ := canonicalisation_changes_number 32 (by decide) perl0
      hvOpen "k" 0xFFFFFFFF (by decide) hk
    rw [h3 (Or.inl rfl)] at h1
    exact ⟨hrc, h1⟩
  · obtain ⟨hrc, n, h1, _, h3, _⟩ := canonicalisation_changes_number 64 (by decide) perl0
      hvOpen "k" 0xFFFFFFFFFFFFFFFF (by decide) hk
    rw [h3 (Or.inr rfl)] at h1
    exact ⟨hrc, h1⟩


end PerlMsg
